import Mathlib

/-!
# Verification of the mpENC protocol core (mpenc_js)

Shallow embedding of the mpENC codec, data-message security, ASKE session-id
computation and greeting state machine, translated from the JavaScript sources
(`src/mpenc/codec.js`, `src/mpenc/greet/greeter.js`, `mpenc/message.js`,
`mpenc/ske.js`).

JavaScript binary strings are modelled as `List Nat`, one element per UTF-16
code unit; a *byte string* additionally has every element `< 256`.  JavaScript
bitwise operators coerce via ToInt32/ToUint32; at every use site below the
operands are small enough that the coercions are identities, except where noted
(the greet-type bit operations model the 32-bit wrap-around explicitly).
-/

set_option maxRecDepth 4000

namespace Mpenc

/-! ## Low-level codec helpers (codec.js)

`_short2bin` is `String.fromCharCode(value >> 8) + String.fromCharCode(value & 0xff)`;
`String.fromCharCode` applies ToUint16, hence the `% 65536`.
`_bin2short` is `(value.charCodeAt(0) << 8) | value.charCodeAt(1)`; a missing
character yields `NaN`, which the bitwise operators coerce to `0`. -/

def short2bin (n : Nat) : List Nat := [(n / 256) % 65536, n % 256]

def bin2short (l : List Nat) : Nat := ((l.getD 0 0) <<< 8) ||| (l.getD 1 0)

theorem lor_shl8_eq_add (a b : Nat) (hb : b < 256) : (a <<< 8) ||| b = a * 256 + b := by
  apply Nat.eq_of_testBit_eq
  intro j
  have h256 : b < 2 ^ 8 := by norm_num at hb ⊢; exact hb
  have hre : a * 256 + b = 2 ^ 8 * a + b := by ring
  rw [hre, Nat.testBit_or, Nat.testBit_shiftLeft,
      Nat.testBit_mul_pow_two_add a h256 j]
  by_cases hj : 8 ≤ j
  · have hbf : b.testBit j = false :=
      Nat.testBit_lt_two_pow (lt_of_lt_of_le h256 (Nat.pow_le_pow_right (by norm_num) hj))
    simp [hj, Nat.not_lt.mpr hj, hbf]
  · simp [hj, Nat.lt_of_not_le hj]

theorem bin2short_short2bin (n : Nat) (h : n < 65536) : bin2short (short2bin n) = n := by
  unfold bin2short short2bin
  have h1 : n / 256 < 65536 := lt_of_le_of_lt (Nat.div_le_self _ _) h
  rw [List.getD_cons_zero, List.getD_cons_succ, List.getD_cons_zero]
  rw [Nat.mod_eq_of_lt h1, lor_shl8_eq_add _ _ (Nat.mod_lt _ (by norm_num))]
  omega

theorem bin2short_short2bin_append (n : Nat) (h : n < 65536) (rest : List Nat) :
    bin2short (short2bin n ++ rest) = n := by
  unfold bin2short short2bin
  have h1 : n / 256 < 65536 := lt_of_le_of_lt (Nat.div_le_self _ _) h
  simp only [List.cons_append, List.nil_append]
  rw [List.getD_cons_zero, List.getD_cons_succ, List.getD_cons_zero]
  rw [Nat.mod_eq_of_lt h1, lor_shl8_eq_add _ _ (Nat.mod_lt _ (by norm_num))]
  omega

/-! ## Wire framing (codec.js `tlvToWire` / `wireToTLV`)

`btoa`/`atob` are the standard base64 host primitives (RFC 4648); they are
modelled concretely on byte lists.  `?mpENC` has character codes
`[63, 109, 112, 69, 78, 67]`; the framing appends `:`=58 and `.`=46. -/

/-- Base64 digit value to ASCII code (`A-Z a-z 0-9 + /`). -/
def b64chr (s : Nat) : Nat :=
  if s < 26 then 65 + s
  else if s < 52 then 97 + (s - 26)
  else if s < 62 then 48 + (s - 52)
  else if s = 62 then 43 else 47

/-- ASCII code of a base64 digit back to its 6-bit value. -/
def b64val (c : Nat) : Nat :=
  if 65 ≤ c ∧ c ≤ 90 then c - 65
  else if 97 ≤ c ∧ c ≤ 122 then c - 97 + 26
  else if 48 ≤ c ∧ c ≤ 57 then c - 48 + 52
  else if c = 43 then 62 else 63

/-- `btoa`: base64-encode a byte string ('=' is code 61). -/
def btoa : List Nat → List Nat
  | [] => []
  | [a] => [b64chr (a / 4), b64chr (a % 4 * 16), 61, 61]
  | [a, b] => [b64chr (a / 4), b64chr (a % 4 * 16 + b / 16), b64chr (b % 16 * 4), 61]
  | a :: b :: c :: rest =>
      b64chr (a / 4) :: b64chr (a % 4 * 16 + b / 16) ::
      b64chr (b % 16 * 4 + c / 64) :: b64chr (c % 64) :: btoa rest

/-- `atob`: base64-decode back to a byte string (a trailing group padded with
`=` carries one or two bytes). -/
def atob : List Nat → List Nat
  | c0 :: c1 :: c2 :: c3 :: rest =>
      if c2 = 61 ∧ c3 = 61 ∧ rest = [] then
        [b64val c0 * 4 + b64val c1 / 16]
      else if c3 = 61 ∧ rest = [] then
        [b64val c0 * 4 + b64val c1 / 16, b64val c1 % 16 * 16 + b64val c2 / 4]
      else
        (b64val c0 * 4 + b64val c1 / 16) ::
        (b64val c1 % 16 * 16 + b64val c2 / 4) ::
        (b64val c2 % 4 * 64 + b64val c3) :: atob rest
  | _ => []

theorem b64val_b64chr (s : Nat) (h : s < 64) : b64val (b64chr s) = s := by
  revert h
  revert s
  decide

theorem b64chr_ne_61 (s : Nat) (h : s < 64) : b64chr s ≠ 61 := by
  revert h
  revert s
  decide

theorem atob_btoa (x : List Nat) (hx : ∀ b ∈ x, b < 256) : atob (btoa x) = x := by
  induction x using btoa.induct with
  | case1 => simp [btoa, atob]
  | case2 a =>
      have ha : a < 256 := hx a (by simp)
      have e0 := b64val_b64chr (a / 4) (by omega)
      have e1 := b64val_b64chr (a % 4 * 16) (by omega)
      simp [btoa, atob, e0, e1]
      omega
  | case3 a b =>
      have ha : a < 256 := hx a (by simp)
      have hb : b < 256 := hx b (by simp)
      have h2 : b64chr (b % 16 * 4) ≠ 61 := b64chr_ne_61 _ (by omega)
      have e0 := b64val_b64chr (a / 4) (by omega)
      have e1 := b64val_b64chr (a % 4 * 16 + b / 16) (by omega)
      have e2 := b64val_b64chr (b % 16 * 4) (by omega)
      simp [btoa, atob, h2, e0, e1, e2]
      omega
  | case4 a b c rest ih =>
      have ha : a < 256 := hx a (by simp)
      have hb : b < 256 := hx b (by simp)
      have hc : c < 256 := hx c (by simp)
      have hrest : ∀ y ∈ rest, y < 256 := by
        intro y hy
        exact hx y (by simp [hy])
      have h3 : b64chr (c % 64) ≠ 61 := b64chr_ne_61 _ (by omega)
      have e0 := b64val_b64chr (a / 4) (by omega)
      have e1 := b64val_b64chr (a % 4 * 16 + b / 16) (by omega)
      have e2 := b64val_b64chr (b % 16 * 4 + c / 64) (by omega)
      have e3 := b64val_b64chr (c % 64) (by omega)
      simp [btoa, atob, h3, e0, e1, e2, e3, ih hrest]
      omega

/-- The character codes of the ASCII framing header `?mpENC`. -/
def protocolHeader : List Nat := [63, 109, 112, 69, 78, 67]

/-- codec.js `tlvToWire`: `_PROTOCOL_PREFIX + ':' + btoa(contents) + '.'`. -/
def tlvToWire (contents : List Nat) : List Nat :=
  protocolHeader ++ [58] ++ btoa contents ++ [46]

/-- codec.js `wireToTLV`: `atob(wireMessage.slice(_PROTOCOL_PREFIX.length + 1, -1))`. -/
def wireToTLV (wireMessage : List Nat) : List Nat :=
  atob ((wireMessage.drop 7).dropLast)

theorem wire_roundtrip (x : List Nat) (hx : ∀ b ∈ x, b < 256) :
    wireToTLV (tlvToWire x) = x := by
  unfold wireToTLV tlvToWire protocolHeader
  rw [show ([63, 109, 112, 69, 78, 67] ++ [58] ++ btoa x ++ [46] : List Nat) =
      [63, 109, 112, 69, 78, 67, 58] ++ (btoa x ++ [46]) from by simp]
  rw [show (7 : Nat) = ([63, 109, 112, 69, 78, 67, 58] : List Nat).length from rfl,
      List.drop_left]
  rw [List.dropLast_concat]
  exact atob_btoa x hx

/-- C9: framing as `?mpENC:` + base64 + `.` followed by stripping the prefix and
the trailing dot and base64-decoding is the identity on byte strings. -/
theorem wireToTLV_tlvToWire (x : List Nat) (hx : ∀ b ∈ x, b < 256) :
    wireToTLV (tlvToWire x) = x :=
  wire_roundtrip x hx

/-- C9 witness: a concrete byte string round-trips through the wire framing. -/
theorem wireToTLV_tlvToWire_wtn :
    (∀ b ∈ [0, 77, 160, 255, 10], b < 256) ∧
      wireToTLV (tlvToWire [0, 77, 160, 255, 10]) = [0, 77, 160, 255, 10] :=
  ⟨by decide, wireToTLV_tlvToWire [0, 77, 160, 255, 10] (by decide)⟩

/-! ## TLV records (codec.js `encodeTLV` / `decodeTLV` / `popTLV*`)

Type registry from codec.js `TLV_TYPE`.  `MESSAGE_TYPE`, `MESSAGE_PAYLOAD`,
`MESSAGE_PARENT`, `MESSAGE_BODY`, `PREV_PF`, `CHAIN_HASH` and `LATEST_PM` are
referenced by greeter.js and message.js but absent from the src codec registry;
they are modelled from the spec (§4.1/§6 list them as codec-versioned records)
with codes chosen distinct from every registered type. -/

def tlvPROTOCOL_VERSION : Nat := 0x0001
def tlvDATA_MESSAGE : Nat := 0x0002
def tlvMESSAGE_SIGNATURE : Nat := 0x0003
def tlvMESSAGE_IV : Nat := 0x0004
def tlvGREET_TYPE : Nat := 0x0005
def tlvSIDKEY_HINT : Nat := 0x0006
def tlvSOURCE : Nat := 0x0100
def tlvDEST : Nat := 0x0101
def tlvMEMBER : Nat := 0x0102
def tlvINT_KEY : Nat := 0x0103
def tlvNONCE : Nat := 0x0104
def tlvPUB_KEY : Nat := 0x0105
def tlvSESSION_SIGNATURE : Nat := 0x0106
def tlvSIGNING_KEY : Nat := 0x0107

/-- Modelled from the spec: the codec-versioned record positions missing from
the src codec registry (`MESSAGE_TYPE`, `MESSAGE_PAYLOAD`, `MESSAGE_PARENT`,
`MESSAGE_BODY`, `PREV_PF`, `CHAIN_HASH`, `LATEST_PM`); the spec fixes their
names but not their numeric codes, which are chosen fresh here. -/
def tlvMESSAGE_TYPE : Nat := 0x0010
def tlvMESSAGE_PAYLOAD : Nat := 0x0011
def tlvMESSAGE_PARENT : Nat := 0x0012
def tlvMESSAGE_BODY : Nat := 0x0013
def tlvPREV_PF : Nat := 0x0014
def tlvCHAIN_HASH : Nat := 0x0015
def tlvLATEST_PM : Nat := 0x0016

/-- codec.js `encodeTLV` (type, then u16 length, then value). -/
def encodeTLV (t : Nat) (v : List Nat) : List Nat :=
  short2bin t ++ short2bin v.length ++ v

/-- codec.js `_encodeTlvArray`. -/
def encodeTlvArray (t : Nat) (vs : List (List Nat)) : List Nat :=
  (vs.map (encodeTLV t)).flatten

/-- One decoded record: type, value and the remaining bytes. -/
structure DecodedTLV where
  type : Nat
  value : List Nat
  rest : List Nat
  deriving Repr, DecidableEq

/-- codec.js `decodeTLV`.  Out-of-range `charCodeAt` yields `NaN`, coerced to 0
by the bitwise operators, which `bin2short`'s `getD 0` models; the length
assertion is the `Malformed` rejection.  The type is `bin2short` of the first
two units, the length `bin2short` of the next two, the value the next `length`
units. -/
def decodeTLV (tlv : List Nat) : Except String DecodedTLV :=
  if bin2short ((tlv.drop 2).take 2) =
      ((tlv.drop 4).take (bin2short ((tlv.drop 2).take 2))).length then
    Except.ok ⟨bin2short (tlv.take 2),
      (tlv.drop 4).take (bin2short ((tlv.drop 2).take 2)),
      tlv.drop (4 + bin2short ((tlv.drop 2).take 2))⟩
  else Except.error "TLV payload length does not match indicated length."

/-- codec.js `popTLV`: consume one record, failing on a type mismatch. -/
def popTLV (msg : List Nat) (ty : Nat) : Except String (List Nat × List Nat) :=
  match decodeTLV msg with
  | Except.error e => Except.error e
  | Except.ok d =>
      if d.type = ty then Except.ok (d.value, d.rest)
      else Except.error "decode failed; unexpected TLV type"

/-- codec.js `popTLVMaybe`: consume one record if the type matches, else
leave the input untouched. -/
def popTLVMaybe (msg : List Nat) (ty : Nat) :
    Except String (Option (List Nat) × List Nat) :=
  match decodeTLV msg with
  | Except.error e => Except.error e
  | Except.ok d =>
      if d.type = ty then Except.ok (some d.value, d.rest)
      else Except.ok (none, msg)

theorem decodeTLV_rest_lt {msg : List Nat} {d : DecodedTLV}
    (h : decodeTLV msg = Except.ok d) (hne : d.rest ≠ msg) :
    d.rest.length < msg.length := by
  unfold decodeTLV at h
  split at h
  · cases h
    simp only [List.length_drop]
    rcases Nat.eq_zero_or_pos msg.length with h0 | h0
    · exact absurd (by simp [List.eq_nil_of_length_eq_zero h0]) hne
    · omega
  · cases h

theorem decodeTLV_rest_lt_of_ne_nil {msg : List Nat} {d : DecodedTLV}
    (h : decodeTLV msg = Except.ok d) (hne : msg ≠ []) :
    d.rest.length < msg.length := by
  unfold decodeTLV at h
  split at h
  · cases h
    simp only [List.length_drop]
    have : 0 < msg.length := List.length_pos.mpr hne
    omega
  · cases h

/-- codec.js `popTLVAll`: keep consuming records of the given type; the JS
loop stops when `popTLVMaybe` leaves the string unchanged (type mismatch, or
an empty-string fixpoint). -/
def popTLVAll (msg : List Nat) (ty : Nat) :
    Except String (List (List Nat) × List Nat) :=
  match h : decodeTLV msg with
  | Except.error e => Except.error e
  | Except.ok d =>
      if d.type = ty then
        if hr : d.rest = msg then Except.ok ([d.value], d.rest)
        else
          match popTLVAll d.rest ty with
          | Except.error e => Except.error e
          | Except.ok (vs, fin) => Except.ok (d.value :: vs, fin)
      else Except.ok ([], msg)
termination_by msg.length
decreasing_by exact decodeTLV_rest_lt h hr

/-- The sequence of record types in a TLV stream (walking records the same way
codec.js `getGreetType` does, stopping at the end or at a malformed record). -/
def scanTLVTypes (msg : List Nat) : List Nat :=
  match msg with
  | [] => []
  | m :: ms =>
      match h : decodeTLV (m :: ms) with
      | Except.error _ => []
      | Except.ok d => d.type :: scanTLVTypes d.rest
termination_by msg.length
decreasing_by
  exact decodeTLV_rest_lt_of_ne_nil h (by simp)

/-- A TLV stream contains a record of the given type. -/
def containsTLVType (ty : Nat) (msg : List Nat) : Bool :=
  ty ∈ scanTLVTypes msg

theorem encodeTLV_length (t : Nat) (v : List Nat) :
    (encodeTLV t v).length = 4 + v.length := by
  simp [encodeTLV, short2bin]
  omega

theorem decodeTLV_encodeTLV (t : Nat) (v rest : List Nat)
    (ht : t < 65536) (hv : v.length < 65536) :
    decodeTLV (encodeTLV t v ++ rest) = Except.ok ⟨t, v, rest⟩ := by
  have htake2 : (encodeTLV t v ++ rest).take 2 = short2bin t := by
    simp [encodeTLV, short2bin]
  have hd2t2 : ((encodeTLV t v ++ rest).drop 2).take 2 = short2bin v.length := by
    simp [encodeTLV, short2bin]
  have hdrop4 : (encodeTLV t v ++ rest).drop 4 = v ++ rest := by
    simp [encodeTLV, short2bin]
  have hdropAll : (encodeTLV t v ++ rest).drop (4 + v.length) = rest :=
    List.drop_left' (encodeTLV_length t v)
  unfold decodeTLV
  rw [htake2, hd2t2, bin2short_short2bin t ht, bin2short_short2bin v.length hv,
      hdrop4, List.take_left, if_pos rfl, hdropAll]

theorem popTLV_encodeTLV (t : Nat) (v rest : List Nat)
    (ht : t < 65536) (hv : v.length < 65536) :
    popTLV (encodeTLV t v ++ rest) t = Except.ok (v, rest) := by
  unfold popTLV
  rw [decodeTLV_encodeTLV t v rest ht hv]
  simp

theorem popTLVMaybe_encodeTLV (t ty : Nat) (v rest : List Nat)
    (ht : t < 65536) (hv : v.length < 65536) :
    popTLVMaybe (encodeTLV t v ++ rest) ty =
      if t = ty then Except.ok (some v, rest)
      else Except.ok (none, encodeTLV t v ++ rest) := by
  unfold popTLVMaybe
  rw [decodeTLV_encodeTLV t v rest ht hv]

theorem popTLVAll_encodeTLV_cons (ty : Nat) (v rest : List Nat)
    (ht : ty < 65536) (hv : v.length < 65536) :
    popTLVAll (encodeTLV ty v ++ rest) ty =
      match popTLVAll rest ty with
      | Except.error e => Except.error e
      | Except.ok (vs, fin) => Except.ok (v :: vs, fin) := by
  rw [popTLVAll]
  rw [decodeTLV_encodeTLV ty v rest ht hv]
  have hne : rest ≠ encodeTLV ty v ++ rest := by
    intro he
    have := congrArg List.length he
    simp [encodeTLV_length] at this
  simp [hne]

theorem popTLVAll_stop (msg : List Nat) (ty : Nat) {d : DecodedTLV}
    (h : decodeTLV msg = Except.ok d) (hne : d.type ≠ ty) :
    popTLVAll msg ty = Except.ok ([], msg) := by
  rw [popTLVAll, h]
  simp [hne]

theorem popTLVAll_encodeTLV_ne (t ty : Nat) (v rest : List Nat)
    (ht : t < 65536) (hv : v.length < 65536) (hne : t ≠ ty) :
    popTLVAll (encodeTLV t v ++ rest) ty = Except.ok ([], encodeTLV t v ++ rest) :=
  popTLVAll_stop _ _ (decodeTLV_encodeTLV t v rest ht hv) hne

theorem scanTLVTypes_cons (t : Nat) (v rest : List Nat)
    (ht : t < 65536) (hv : v.length < 65536) :
    scanTLVTypes (encodeTLV t v ++ rest) = t :: scanTLVTypes rest := by
  have hcons : encodeTLV t v ++ rest =
      (t / 256) % 65536 :: (t % 256 :: ((v.length / 256) % 65536 ::
        (v.length % 256 :: (v ++ rest)))) := by
    simp [encodeTLV, short2bin]
  conv_lhs => rw [hcons, scanTLVTypes]
  rw [← hcons, decodeTLV_encodeTLV t v rest ht hv]

/-! ## Greet types (greeter.js)

A greet-type is a two-character string; it is modelled as the pair of its two
UTF-16 code units.  greeter.js `GREET_TYPE` enumerates exactly thirteen legal
values. -/

def INIT_INITIATOR_UP : Nat × Nat := (0, 0x9c)
def INIT_PARTICIPANT_UP : Nat × Nat := (0, 0x1c)
def INIT_PARTICIPANT_DOWN : Nat × Nat := (0, 0x1e)
def INIT_PARTICIPANT_CONFIRM_DOWN : Nat × Nat := (0, 0x1a)
def INCLUDE_AUX_INITIATOR_UP : Nat × Nat := (0, 0xad)
def INCLUDE_AUX_PARTICIPANT_UP : Nat × Nat := (0, 0x2d)
def INCLUDE_AUX_PARTICIPANT_DOWN : Nat × Nat := (0, 0x2f)
def INCLUDE_AUX_PARTICIPANT_CONFIRM_DOWN : Nat × Nat := (0, 0x2b)
def EXCLUDE_AUX_INITIATOR_DOWN : Nat × Nat := (0, 0xbf)
def EXCLUDE_AUX_PARTICIPANT_CONFIRM_DOWN : Nat × Nat := (0, 0x3b)
def REFRESH_AUX_INITIATOR_DOWN : Nat × Nat := (0, 0xc7)
def REFRESH_AUX_PARTICIPANT_DOWN : Nat × Nat := (0, 0x47)
def QUIT_DOWN : Nat × Nat := (0, 0xd3)

/-- greeter.js `GREET_TYPE` / `GREET_TYPE_MAPPING`: the enumerated legal
greet-types. -/
def GREET_TYPE_VALUES : List (Nat × Nat) :=
  [INIT_INITIATOR_UP, INIT_PARTICIPANT_UP, INIT_PARTICIPANT_DOWN,
   INIT_PARTICIPANT_CONFIRM_DOWN, INCLUDE_AUX_INITIATOR_UP,
   INCLUDE_AUX_PARTICIPANT_UP, INCLUDE_AUX_PARTICIPANT_DOWN,
   INCLUDE_AUX_PARTICIPANT_CONFIRM_DOWN, EXCLUDE_AUX_INITIATOR_DOWN,
   EXCLUDE_AUX_PARTICIPANT_CONFIRM_DOWN, REFRESH_AUX_INITIATOR_DOWN,
   REFRESH_AUX_PARTICIPANT_DOWN, QUIT_DOWN]

/-- greeter.js `greetTypeToNumber`:
`(typeString.charCodeAt(0) << 8) | typeString.charCodeAt(1)`. -/
def greetTypeToNumber (g : Nat × Nat) : Nat := (g.1 <<< 8) ||| g.2

/-- The signed value of the JavaScript int32 `1 << bit` (shift counts
coerce modulo 32; `1 << 31` is negative). -/
def jsShl1 (bit : Nat) : Int :=
  if bit % 32 = 31 then -(2 ^ 31) else (2 : Int) ^ (bit % 32)

/-- The unsigned 32-bit pattern of a JavaScript int32 value. -/
def toUint32 (i : Int) : Nat := (i % (2 ^ 32 : Int)).toNat

/-- greeter.js `greetTypeFromNumber`:
`String.fromCharCode(typeNumber >>> 8) + String.fromCharCode(typeNumber & 0xff)`
on the uint32 pattern of the number (`String.fromCharCode` applies ToUint16). -/
def greetTypeFromNumber (n : Nat) : Nat × Nat := ((n >>> 8) % 65536, n % 256)

/-- greeter.js `GreetMessage.prototype._setBit` acting on the greet-type.
`value` covers the boolean case of the source (`true`/`false`; the non-boolean
`Illegal value` branch is outside the claim's quantification);
`newGreetTypeNum |= 1 << bit` and `newGreetTypeNum &= 0xffff - (1 << bit)` are
modelled on uint32 bit patterns.  On a type outside the enumeration the source
throws before assigning (the functional embedding returns `error`, which leaves
the message unchanged), unless `noMessageCheck` overrides. -/
def _setBit (g : Nat × Nat) (bit : Nat) (value : Bool) (noMessageCheck : Bool) :
    Except String (Nat × Nat) :=
  if (if value then
        greetTypeFromNumber (greetTypeToNumber g ||| toUint32 (jsShl1 bit))
      else
        greetTypeFromNumber (greetTypeToNumber g &&&
          toUint32 (65535 - jsShl1 bit))) ∈ GREET_TYPE_VALUES then
    Except.ok (if value then
        greetTypeFromNumber (greetTypeToNumber g ||| toUint32 (jsShl1 bit))
      else
        greetTypeFromNumber (greetTypeToNumber g &&&
          toUint32 (65535 - jsShl1 bit)))
  else if noMessageCheck then
    Except.ok (if value then
        greetTypeFromNumber (greetTypeToNumber g ||| toUint32 (jsShl1 bit))
      else
        greetTypeFromNumber (greetTypeToNumber g &&&
          toUint32 (65535 - jsShl1 bit)))
  else Except.error "Illegal message type!"

/-- C4: starting from an enumerated greet-type, `_setBit` on any bit position
and boolean value without the override flag either yields a greet-type that is
again in the enumerated set or fails with "Illegal message type!" (leaving the
type unchanged, since the source throws before assigning); with the override
flag the resulting type is always stored. -/
theorem setBit_checked_or_stored (g : Nat × Nat) (bit : Nat) (value : Bool)
    (hg : g ∈ GREET_TYPE_VALUES) :
    ((∃ g', _setBit g bit value false = Except.ok g' ∧ g' ∈ GREET_TYPE_VALUES) ∨
        _setBit g bit value false = Except.error "Illegal message type!") ∧
      (∃ g', _setBit g bit value true = Except.ok g') := by
  clear hg
  unfold _setBit
  by_cases h : (if value then
      greetTypeFromNumber (greetTypeToNumber g ||| toUint32 (jsShl1 bit))
    else
      greetTypeFromNumber (greetTypeToNumber g &&&
        toUint32 (65535 - jsShl1 bit))) ∈ GREET_TYPE_VALUES
  · rw [if_pos h, if_pos h]
    exact ⟨Or.inl ⟨_, rfl, h⟩, ⟨_, rfl⟩⟩
  · rw [if_neg h, if_neg h]
    constructor
    · right
      simp
    · exact ⟨(if value then
          greetTypeFromNumber (greetTypeToNumber g ||| toUint32 (jsShl1 bit))
        else
          greetTypeFromNumber (greetTypeToNumber g &&&
            toUint32 (65535 - jsShl1 bit))), by simp⟩

/-- C4 witness: setting the DOWN bit on `INIT_PARTICIPANT_UP` legally yields
`INIT_PARTICIPANT_DOWN`, and clearing bit 2 of `INIT_PARTICIPANT_UP` is
rejected without the override but stored with it. -/
theorem setBit_checked_or_stored_wtn :
    INIT_PARTICIPANT_UP ∈ GREET_TYPE_VALUES ∧
      (((∃ g', _setBit INIT_PARTICIPANT_UP 1 true false = Except.ok g' ∧
            g' ∈ GREET_TYPE_VALUES) ∨
          _setBit INIT_PARTICIPANT_UP 1 true false =
            Except.error "Illegal message type!") ∧
        (∃ g', _setBit INIT_PARTICIPANT_UP 1 true true = Except.ok g')) :=
  ⟨by decide, setBit_checked_or_stored INIT_PARTICIPANT_UP 1 true (by decide)⟩

/-! ## Raw data-message encryption (message.js `_encryptRaw` / `_decryptRaw`)

`asmCrypto.AES_CTR.encrypt/decrypt` is an external primitive; the embedding
takes it as an explicit function argument `aes data key iv`, as it takes the
RNG output `nonce` (`utils.randomString(12)`).

The source computes the padding exponent as
`Math.ceil(Math.log(k) / Math.log(2))` in IEEE-754 doubles, with
`k = Math.ceil(dataBytes.length / paddingSize)`.  The `dataBytes.length <
0xffff` assertion bounds `k ≤ 65536`, and for every `1 ≤ k ≤ 65536` the
double-precision value of `ceil(log k / log 2)` equals the exact
`⌈log₂ k⌉ = Nat.clog 2 k` (checked exhaustively), so the embedding uses
`Nat.clog`. -/

/-- The plaintext handed to AES by `_encryptRaw`: the u16 length prefix, then
the data, then — when `paddingSize > 0` — the zero padding.  The source
computes `exponentialPaddingSize = paddingSize * (1 << e) + 1` and appends
`(new Array(numPaddingBytes)).join('\u0000')`, whose length is
`numPaddingBytes - 1`; the two off-by-ones cancel. -/
def paddedPlain (dataBytes : List Nat) (paddingSize : Nat) : List Nat :=
  if paddingSize = 0 then short2bin dataBytes.length ++ dataBytes
  else
    (short2bin dataBytes.length ++ dataBytes) ++
      List.replicate
        (paddingSize *
            2 ^ Nat.clog 2 ((dataBytes.length + 2 + paddingSize - 1) / paddingSize) +
          1 - (dataBytes.length + 2) - 1) 0

/-- message.js `_encryptRaw`: assert the length bound, prefix the u16 length,
pad, AES-CTR-encrypt with counter block `nonce(12) ‖ 0x00000000`, and return
the ciphertext together with the nonce as IV. -/
def _encryptRaw (aes : List Nat → List Nat → List Nat → List Nat)
    (nonce dataBytes key : List Nat) (paddingSize : Nat) :
    Except String (List Nat × List Nat) :=
  if dataBytes.length < 65535 then
    Except.ok (aes (paddedPlain dataBytes paddingSize) key (nonce ++ [0, 0, 0, 0]),
      nonce)
  else Except.error "Message size too large for encryption scheme."

/-- message.js `_decryptRaw`: AES-CTR-decrypt with counter block
`iv.slice(0,12) ‖ 0x00000000`, read the u16 length, strip prefix and padding. -/
def _decryptRaw (aes : List Nat → List Nat → List Nat → List Nat)
    (data key iv : List Nat) : List Nat :=
  ((aes data key (iv.take 12 ++ [0, 0, 0, 0])).drop 2).take
    (bin2short ((aes data key (iv.take 12 ++ [0, 0, 0, 0])).take 2))

theorem ceilDiv_mul_ge (len P : Nat) (hP : 0 < P) : len ≤ P * ((len + P - 1) / P) := by
  have h1 := Nat.div_add_mod (len + P - 1) P
  have h2 := Nat.mod_lt (len + P - 1) hP
  omega

theorem paddedPlain_target_ge (len P : Nat) (hP : 0 < P) :
    len ≤ P * 2 ^ Nat.clog 2 ((len + P - 1) / P) := by
  have h1 := ceilDiv_mul_ge len P hP
  have hk : (len + P - 1) / P ≤ 2 ^ Nat.clog 2 ((len + P - 1) / P) :=
    Nat.le_pow_clog (by norm_num) _
  have hle : P * ((len + P - 1) / P) ≤ P * 2 ^ Nat.clog 2 ((len + P - 1) / P) :=
    Nat.mul_le_mul_left _ hk
  omega

/-- C7: with padding size `P > 0` and a record stream that fits the scheme,
the byte string handed to AES has length exactly
`P * 2 ^ ⌈log₂⌈(len(d)+2)/P⌉⌉` — the next power-of-two multiple of `P` at or
above the length-prefixed stream — and the extension beyond the prefixed data
consists of zero bytes; with `P = 0` no padding is added.  The final conjunct
ties this to `_encryptRaw`: the AES plaintext argument is exactly
`paddedPlain`. -/
theorem encryptRaw_pads_to_power_of_two (d : List Nat) (P : Nat)
    (hP : 0 < P) (hd : d.length < 65535) :
    (paddedPlain d P).length =
        P * 2 ^ Nat.clog 2 ((d.length + 2 + P - 1) / P) ∧
      paddedPlain d P = (short2bin d.length ++ d) ++
        List.replicate
          (P * 2 ^ Nat.clog 2 ((d.length + 2 + P - 1) / P) - (d.length + 2)) 0 ∧
      paddedPlain d 0 = short2bin d.length ++ d ∧
      ∀ aes nonce key, _encryptRaw aes nonce d key P =
        Except.ok (aes (paddedPlain d P) key (nonce ++ [0, 0, 0, 0]), nonce) := by
  have htarget := paddedPlain_target_ge (d.length + 2) P hP
  refine ⟨?_, ?_, ?_, ?_⟩
  · unfold paddedPlain
    rw [if_neg (Nat.pos_iff_ne_zero.mp hP)]
    simp only [List.length_append, List.length_replicate, short2bin, List.length_cons,
      List.length_nil]
    omega
  · unfold paddedPlain
    rw [if_neg (Nat.pos_iff_ne_zero.mp hP)]
    congr 1
    congr 1
    omega
  · simp [paddedPlain]
  · intro aes nonce key
    unfold _encryptRaw
    rw [if_pos hd]

/-- C7 witness: with `P = 32` and a 10-byte stream the AES input is exactly 32
bytes, the prefixed stream followed by 20 zero bytes. -/
theorem encryptRaw_pads_to_power_of_two_wtn :
    (0 < 32 ∧ ([0, 1, 2, 3, 4, 5, 6, 7, 8, 9] : List Nat).length < 65535) ∧
      ((paddedPlain [0, 1, 2, 3, 4, 5, 6, 7, 8, 9] 32).length =
          32 * 2 ^ Nat.clog 2 ((([0, 1, 2, 3, 4, 5, 6, 7, 8, 9] : List Nat).length
            + 2 + 32 - 1) / 32) ∧
        paddedPlain [0, 1, 2, 3, 4, 5, 6, 7, 8, 9] 32 =
          (short2bin ([0, 1, 2, 3, 4, 5, 6, 7, 8, 9] : List Nat).length ++
            [0, 1, 2, 3, 4, 5, 6, 7, 8, 9]) ++
          List.replicate
            (32 * 2 ^ Nat.clog 2 ((([0, 1, 2, 3, 4, 5, 6, 7, 8, 9] : List Nat).length
              + 2 + 32 - 1) / 32) -
              (([0, 1, 2, 3, 4, 5, 6, 7, 8, 9] : List Nat).length + 2)) 0 ∧
        paddedPlain [0, 1, 2, 3, 4, 5, 6, 7, 8, 9] 0 =
          short2bin ([0, 1, 2, 3, 4, 5, 6, 7, 8, 9] : List Nat).length ++
            [0, 1, 2, 3, 4, 5, 6, 7, 8, 9] ∧
        ∀ aes nonce key, _encryptRaw aes nonce [0, 1, 2, 3, 4, 5, 6, 7, 8, 9] key 32 =
          Except.ok (aes (paddedPlain [0, 1, 2, 3, 4, 5, 6, 7, 8, 9] 32) key
            (nonce ++ [0, 0, 0, 0]), nonce)) :=
  ⟨⟨by decide, by decide⟩,
    encryptRaw_pads_to_power_of_two [0, 1, 2, 3, 4, 5, 6, 7, 8, 9] 32
      (by decide) (by decide)⟩

/-- C10: `_encryptRaw` (hence `authEncrypt`, which calls it on the TLV record
stream) rejects any stream of 65535 bytes or more before producing any
ciphertext; for shorter streams the u16 prefix written before encryption is
`short2bin` of the exact byte length, which `bin2short` reads back without
wrapping. -/
theorem encryptRaw_length_guard (d : List Nat) (P : Nat) :
    (65535 ≤ d.length → ∀ aes nonce key,
        _encryptRaw aes nonce d key P =
          Except.error "Message size too large for encryption scheme.") ∧
      (d.length < 65535 →
        (paddedPlain d P).take 2 = short2bin d.length ∧
          bin2short ((paddedPlain d P).take 2) = d.length) := by
  constructor
  · intro hge aes nonce key
    unfold _encryptRaw
    rw [if_neg (by omega)]
  · intro hlt
    have htake : (paddedPlain d P).take 2 = short2bin d.length := by
      unfold paddedPlain
      rcases Nat.eq_zero_or_pos P with h0 | h0
      · rw [if_pos h0]
        rw [show short2bin d.length ++ d = short2bin d.length ++ d from rfl]
        exact List.take_left' (by simp [short2bin])
      · rw [if_neg (Nat.pos_iff_ne_zero.mp h0), List.append_assoc]
        exact List.take_left' (by simp [short2bin])
    refine ⟨htake, ?_⟩
    rw [htake]
    exact bin2short_short2bin d.length (by omega)

/-- C10 witness: a 65535-byte stream is rejected; a 3-byte stream gets the
exact length prefix back. -/
theorem encryptRaw_length_guard_wtn :
    _encryptRaw (fun data _ _ => data) [9] (List.replicate 65535 7) [5] 0 =
        Except.error "Message size too large for encryption scheme." ∧
      ((paddedPlain [1, 2, 3] 0).take 2 = short2bin ([1, 2, 3] : List Nat).length ∧
        bin2short ((paddedPlain [1, 2, 3] 0).take 2) = ([1, 2, 3] : List Nat).length) :=
  ⟨(encryptRaw_length_guard (List.replicate 65535 7) 0).1
      (by rw [List.length_replicate]) (fun data _ _ => data) [9] [5],
    (encryptRaw_length_guard [1, 2, 3] 0).2 (by decide)⟩

/-! ## UTF-8 (message.js `unescape(encodeURIComponent(...))` and its inverse)

The host primitives perform standard UTF-8 between a sequence of Unicode
scalar values and a byte string; they are modelled concretely. -/

/-- UTF-8 encoding of one code point. -/
def utf8EncodeChar (c : Nat) : List Nat :=
  if c < 0x80 then [c]
  else if c < 0x800 then [0xC0 + c / 64, 0x80 + c % 64]
  else if c < 0x10000 then [0xE0 + c / 4096, 0x80 + c / 64 % 64, 0x80 + c % 64]
  else [0xF0 + c / 262144, 0x80 + c / 4096 % 64, 0x80 + c / 64 % 64, 0x80 + c % 64]

/-- UTF-8 encoding of a code-point sequence. -/
def utf8Encode (l : List Nat) : List Nat := (l.map utf8EncodeChar).flatten

/-- One step of the byte-at-a-time UTF-8 decoder: the state is `none` after a
malformed byte, otherwise the decoded prefix together with the pending
multi-byte character (bytes still needed, partial value). -/
def utf8Step : Option (List Nat × Option (Nat × Nat)) → Nat →
    Option (List Nat × Option (Nat × Nat))
  | none, _ => none
  | some (acc, none), b =>
      if b < 128 then some (acc ++ [b], none)
      else if b < 192 then none
      else if b < 224 then some (acc, some (1, b - 192))
      else if b < 240 then some (acc, some (2, b - 224))
      else if b < 248 then some (acc, some (3, b - 240))
      else none
  | some (acc, some (need, part)), b =>
      if 128 ≤ b ∧ b < 192 then
        if need = 1 then some (acc ++ [part * 64 + (b - 128)], none)
        else some (acc, some (need - 1, part * 64 + (b - 128)))
      else none

/-- UTF-8 decoding; `none` on a malformed or truncated byte sequence (the
host primitive throws `URIError`). -/
def utf8Decode (l : List Nat) : Option (List Nat) :=
  match l.foldl utf8Step (some ([], none)) with
  | some (acc, none) => some acc
  | _ => none

theorem utf8Step_encodeChar (c : Nat) (hc : c < 0x110000) (acc : List Nat) :
    (utf8EncodeChar c).foldl utf8Step (some (acc, none)) =
      some (acc ++ [c], none) := by
  unfold utf8EncodeChar
  by_cases h1 : c < 0x80
  · rw [if_pos h1]
    simp only [List.foldl_cons, List.foldl_nil, utf8Step]
    rw [if_pos (by omega)]
  · rw [if_neg h1]
    by_cases h2 : c < 0x800
    · rw [if_pos h2]
      simp only [List.foldl_cons, List.foldl_nil, utf8Step]
      rw [if_neg (by omega), if_neg (by omega), if_pos (by omega)]
      simp only [utf8Step]
      rw [if_pos (by omega), if_pos True.intro]
      have harith : (192 + c / 64 - 192) * 64 + (128 + c % 64 - 128) = c := by omega
      rw [harith]
    · rw [if_neg h2]
      by_cases h3 : c < 0x10000
      · rw [if_pos h3]
        simp only [List.foldl_cons, List.foldl_nil, utf8Step]
        rw [if_neg (by omega), if_neg (by omega), if_neg (by omega),
            if_pos (by omega)]
        simp only [utf8Step]
        rw [if_pos (by omega), if_neg (by omega)]
        simp only [utf8Step]
        rw [if_pos (by omega), if_pos True.intro]
        have harith : ((224 + c / 4096 - 224) * 64 + (128 + c / 64 % 64 - 128)) * 64 +
            (128 + c % 64 - 128) = c := by omega
        rw [harith]
      · rw [if_neg h3]
        simp only [List.foldl_cons, List.foldl_nil, utf8Step]
        rw [if_neg (by omega), if_neg (by omega), if_neg (by omega),
            if_neg (by omega), if_pos (by omega)]
        simp only [utf8Step]
        rw [if_pos (by omega), if_neg (by omega)]
        simp only [utf8Step]
        rw [if_pos (by omega), if_neg (by omega)]
        simp only [utf8Step]
        rw [if_pos (by omega), if_pos True.intro]
        have harith : (((240 + c / 262144 - 240) * 64 + (128 + c / 4096 % 64 - 128)) * 64 +
            (128 + c / 64 % 64 - 128)) * 64 + (128 + c % 64 - 128) = c := by omega
        rw [harith]

theorem utf8Decode_utf8Encode (l : List Nat) (hl : ∀ c ∈ l, c < 0x110000) :
    utf8Decode (utf8Encode l) = some l := by
  suffices h : ∀ acc, (utf8Encode l).foldl utf8Step (some (acc, none)) =
      some (acc ++ l, none) by
    unfold utf8Decode
    rw [h []]
    simp
  induction l with
  | nil => intro acc; simp [utf8Encode]
  | cons c cs ih =>
      intro acc
      have hc : c < 0x110000 := hl c (by simp)
      have hcs : ∀ x ∈ cs, x < 0x110000 := fun x hx => hl x (by simp [hx])
      rw [show utf8Encode (c :: cs) = utf8EncodeChar c ++ utf8Encode cs from by
        simp [utf8Encode]]
      rw [List.foldl_append, utf8Step_encodeChar c hc acc, ih hcs]
      simp

theorem utf8EncodeChar_bytes (c : Nat) (hc : c < 0x110000) :
    ∀ b ∈ utf8EncodeChar c, b < 256 := by
  unfold utf8EncodeChar
  by_cases h1 : c < 0x80
  · rw [if_pos h1]
    intro b hb
    simp at hb
    omega
  · rw [if_neg h1]
    by_cases h2 : c < 0x800
    · rw [if_pos h2]
      intro b hb
      simp at hb
      rcases hb with hb | hb <;> omega
    · rw [if_neg h2]
      by_cases h3 : c < 0x10000
      · rw [if_pos h3]
        intro b hb
        simp at hb
        rcases hb with hb | hb | hb <;> omega
      · rw [if_neg h3]
        intro b hb
        simp at hb
        rcases hb with hb | hb | hb | hb <;> omega

theorem utf8Encode_bytes (l : List Nat) (hl : ∀ c ∈ l, c < 0x110000) :
    ∀ b ∈ utf8Encode l, b < 256 := by
  intro b hb
  simp only [utf8Encode, List.mem_flatten, List.mem_map] at hb
  obtain ⟨bs, ⟨c, hc, rfl⟩, hbbs⟩ := hb
  exact utf8EncodeChar_bytes c (hl c hc) b hbbs

/-! ## AES-CTR as keystream XOR

CTR mode turns the block cipher into a keystream generator; encryption and
decryption XOR the data with the keystream determined by (key, counter block).
The keystream `ks key iv n` (`n` bytes) is abstract. -/

/-- AES-CTR encryption/decryption over an abstract keystream. -/
def aesCTR (ks : List Nat → List Nat → Nat → List Nat)
    (data key iv : List Nat) : List Nat :=
  data.zipWith (· ^^^ ·) (ks key iv data.length)

theorem zipWith_xor_involution (data ks : List Nat) (h : data.length ≤ ks.length) :
    (data.zipWith (· ^^^ ·) ks).zipWith (· ^^^ ·) ks = data := by
  induction data generalizing ks with
  | nil => simp
  | cons d ds ih =>
      cases ks with
      | nil => simp at h
      | cons k kk =>
          simp only [List.zipWith_cons_cons, List.cons.injEq]
          refine ⟨?_, ih kk (by simpa using h)⟩
          rw [Nat.xor_assoc, Nat.xor_self, Nat.xor_zero]

theorem aesCTR_involution (ks : List Nat → List Nat → Nat → List Nat)
    (hks : ∀ key iv n, (ks key iv n).length = n) (data key iv : List Nat) :
    aesCTR ks (aesCTR ks data key iv) key iv = data := by
  unfold aesCTR
  have hlen : (data.zipWith (· ^^^ ·) (ks key iv data.length)).length = data.length := by
    simp [hks]
  rw [hlen]
  exact zipWith_xor_involution data (ks key iv data.length) (by simp [hks])

theorem aesCTR_length (ks : List Nat → List Nat → Nat → List Nat)
    (hks : ∀ key iv n, (ks key iv n).length = n) (data key iv : List Nat) :
    (aesCTR ks data key iv).length = data.length := by
  simp [aesCTR, hks]

/-! ## ASKE session-id (`mpenc.ske._computeSid`)

Member ids and nonces are binary strings (`List Nat` of UTF-16 code units).
`members.concat().sort()` uses the default comparator, i.e. UTF-16
lexicographic string order, modelled by `strLe`; the `mapping[pid]` object
lookup follows JavaScript assignment semantics (later writes win, a missing
key reads back as `undefined`, which string concatenation renders as
`"undefined"`).  SHA-256 is an external primitive, taken as a function
argument. -/

/-- UTF-16 lexicographic string comparison (JavaScript `<=` on strings, the
default `Array.sort` order). -/
def strLe : List Nat → List Nat → Bool
  | [], _ => true
  | _ :: _, [] => false
  | a :: as, b :: bs => if a < b then true else if b < a then false else strLe as bs

theorem strLe_trans : ∀ x y z : List Nat, strLe x y → strLe y z → strLe x z
  | [], _, _, _, _ => by simp [strLe]
  | _ :: _, [], _, hxy, _ => by simp [strLe] at hxy
  | _ :: _, _ :: _, [], _, hyz => by simp [strLe] at hyz
  | x :: xs, y :: ys, z :: zs, hxy, hyz => by
      simp only [strLe] at hxy hyz ⊢
      split_ifs at hxy hyz ⊢ <;> first
        | rfl
        | omega
        | exact strLe_trans xs ys zs hxy hyz
        | simp_all

theorem strLe_total : ∀ x y : List Nat, (strLe x y || strLe y x) = true
  | [], _ => by simp [strLe]
  | _ :: _, [] => by simp [strLe]
  | x :: xs, y :: ys => by
      simp only [strLe]
      by_cases h1 : x < y
      · simp [h1]
      · by_cases h2 : y < x
        · simp [h1, h2]
        · simp only [if_neg h1, if_neg h2]
          exact strLe_total xs ys

theorem strLe_antisymm : ∀ x y : List Nat, strLe x y → strLe y x → x = y
  | [], [], _, _ => rfl
  | [], _ :: _, _, hyx => by simp [strLe] at hyx
  | _ :: _, [], hxy, _ => by simp [strLe] at hxy
  | x :: xs, y :: ys, hxy, hyx => by
      simp only [strLe] at hxy hyx
      by_cases h1 : x < y
      · rw [if_neg (by omega), if_pos h1] at hyx
        exact absurd hyx (by simp)
      · by_cases h2 : y < x
        · rw [if_neg h1, if_pos h2] at hxy
          exact absurd hxy (by simp)
        · rw [if_neg h1, if_neg h2] at hxy
          rw [if_neg h2, if_neg h1] at hyx
          have hxy' : x = y := by omega
          rw [hxy', strLe_antisymm xs ys hxy hyx]

instance : IsAntisymm (List Nat) (fun a b => strLe a b = true) :=
  ⟨strLe_antisymm⟩

/-- JavaScript object built by iterated assignment `mapping[k] = v` (later
assignments overwrite earlier ones); lookup of a missing key is `undefined`. -/
def jsObjAssign (ps : List (List Nat × List Nat)) : List Nat → Option (List Nat) :=
  ps.foldl (fun f p => fun k => if k = p.1 then some p.2 else f k) (fun _ => none)

/-- The UTF-16 code units of the string `"undefined"`, which is what string
concatenation renders a missing lookup as. -/
def jsUndefined : List Nat := [117, 110, 100, 101, 102, 105, 110, 101, 100]

/-- ske.js `mpenc.ske._computeSid`: map each member to its nonce, sort a copy
of the member list, concatenate sorted ids then their nonces in that order,
and hash. -/
def _computeSid (sha : List Nat → List Nat) (members nonces : List (List Nat)) :
    List Nat :=
  sha ((members.mergeSort strLe).flatten ++
    ((members.mergeSort strLe).map (fun pid =>
      (jsObjAssign (members.zip nonces) pid).getD jsUndefined)).flatten)

theorem jsObjAssign_snoc (ps : List (List Nat × List Nat))
    (p : List Nat × List Nat) (k : List Nat) :
    jsObjAssign (ps ++ [p]) k = if k = p.1 then some p.2 else jsObjAssign ps k := by
  simp [jsObjAssign, List.foldl_append]

theorem jsObjAssign_none_iff (ps : List (List Nat × List Nat)) (k : List Nat) :
    jsObjAssign ps k = none ↔ k ∉ ps.map Prod.fst := by
  induction ps using List.reverseRecOn with
  | nil => simp [jsObjAssign]
  | append_singleton ps p ih =>
      rw [jsObjAssign_snoc]
      by_cases hk : k = p.1
      · simp [hk]
      · simp [hk, ih]

theorem jsObjAssign_some_iff (ps : List (List Nat × List Nat)) (k v : List Nat)
    (hnd : (ps.map Prod.fst).Nodup) :
    jsObjAssign ps k = some v ↔ (k, v) ∈ ps := by
  induction ps using List.reverseRecOn with
  | nil => simp [jsObjAssign]
  | append_singleton ps p ih =>
      obtain ⟨p1, p2⟩ := p
      have hnd' : (ps.map Prod.fst).Nodup := by
        simp only [List.map_append, List.map_cons, List.map_nil] at hnd
        exact (List.nodup_append.mp hnd).1
      have hp1 : p1 ∉ ps.map Prod.fst := by
        simp only [List.map_append, List.map_cons, List.map_nil] at hnd
        have hdisj := (List.nodup_append.mp hnd).2.2
        intro hmem
        exact hdisj hmem (by simp)
      rw [jsObjAssign_snoc]
      by_cases hk : k = p1
      · rw [if_pos (show k = (p1, p2).1 from hk)]
        constructor
        · intro h
          have hv : p2 = v := by injection h
          rw [List.mem_append]
          exact Or.inr (by simp [hk, hv.symm])
        · intro h
          rcases List.mem_append.mp h with h | h
          · exact absurd (show p1 ∈ ps.map Prod.fst from by
              rw [← hk]
              exact List.mem_map.mpr ⟨(k, v), h, rfl⟩) hp1
          · simp only [List.mem_singleton, Prod.mk.injEq] at h
            rw [h.2]
      · rw [if_neg (show ¬k = (p1, p2).1 from hk), ih hnd']
        constructor
        · intro h
          exact List.mem_append.mpr (Or.inl h)
        · intro h
          rcases List.mem_append.mp h with h | h
          · exact h
          · simp only [List.mem_singleton, Prod.mk.injEq] at h
            exact absurd h.1 hk

theorem jsObjAssign_perm (ps qs : List (List Nat × List Nat))
    (hnd : (ps.map Prod.fst).Nodup) (hperm : ps.Perm qs) (k : List Nat) :
    jsObjAssign ps k = jsObjAssign qs k := by
  have hndq : (qs.map Prod.fst).Nodup := (hperm.map Prod.fst).nodup hnd
  match h : jsObjAssign ps k with
  | none =>
      have hk := (jsObjAssign_none_iff ps k).mp h
      have : k ∉ qs.map Prod.fst := by
        intro hmem
        exact hk ((hperm.map Prod.fst).mem_iff.mpr hmem)
      rw [(jsObjAssign_none_iff qs k).mpr this]
  | some v =>
      have hk := (jsObjAssign_some_iff ps k v hnd).mp h
      rw [(jsObjAssign_some_iff qs k v hndq).mpr (hperm.mem_iff.mp hk)]

/-- C8: `_computeSid` is invariant under any permutation applied jointly to
the (pairwise-distinct) member list and the nonce list: the session id depends
only on the id-to-nonce mapping, not on the order the pairs appear in. -/
theorem computeSid_perm_invariant (sha : List Nat → List Nat)
    (m1 n1 m2 n2 : List (List Nat))
    (hnd : m1.Nodup) (hl1 : m1.length = n1.length) (hl2 : m2.length = n2.length)
    (hperm : (m1.zip n1).Perm (m2.zip n2)) :
    _computeSid sha m1 n1 = _computeSid sha m2 n2 := by
  have hfst1 : (m1.zip n1).map Prod.fst = m1 := List.map_fst_zip _ _ (le_of_eq hl1)
  have hfst2 : (m2.zip n2).map Prod.fst = m2 := List.map_fst_zip _ _ (le_of_eq hl2)
  have hm : m1.Perm m2 := by
    rw [← hfst1, ← hfst2]
    exact hperm.map _
  have hkeys1 : ((m1.zip n1).map Prod.fst).Nodup := by
    rw [hfst1]
    exact hnd
  have hsorteq : m1.mergeSort strLe = m2.mergeSort strLe := by
    apply List.eq_of_perm_of_sorted (r := fun a b => strLe a b = true)
    · exact ((List.mergeSort_perm m1 strLe).trans hm).trans
        (List.mergeSort_perm m2 strLe).symm
    · exact List.sorted_mergeSort strLe_trans strLe_total m1
    · exact List.sorted_mergeSort strLe_trans strLe_total m2
  have hmap : ∀ k, jsObjAssign (m1.zip n1) k = jsObjAssign (m2.zip n2) k :=
    jsObjAssign_perm _ _ hkeys1 hperm
  unfold _computeSid
  rw [hsorteq]
  have hmapeq : (m2.mergeSort strLe).map (fun pid =>
      (jsObjAssign (m1.zip n1) pid).getD jsUndefined) =
    (m2.mergeSort strLe).map (fun pid =>
      (jsObjAssign (m2.zip n2) pid).getD jsUndefined) :=
    List.map_congr_left (fun x _ => by rw [hmap x])
  rw [hmapeq]

/-- C8 witness: swapping the two members together with their nonces yields the
same session id, for an arbitrary concrete hash function. -/
theorem computeSid_perm_invariant_wtn :
    ([[98], [97]] : List (List Nat)).Nodup ∧
      _computeSid (fun l => l) [[98], [97]] [[1], [2]] =
        _computeSid (fun l => l) [[97], [98]] [[2], [1]] :=
  ⟨by decide,
    computeSid_perm_invariant (fun l => l) [[98], [97]] [[1], [2]]
      [[97], [98]] [[2], [1]] (by decide) (by decide) (by decide)
      (List.Perm.swap ([97], [2]) ([98], [1]) [])⟩

/-! ## Greeting states (greeter.js `ns.STATE`) -/

def STATE_NULL : Nat := 0x00
def STATE_INIT_UPFLOW : Nat := 0x01
def STATE_INIT_DOWNFLOW : Nat := 0x02
def STATE_READY : Nat := 0x03
def STATE_AUX_UPFLOW : Nat := 0x04
def STATE_AUX_DOWNFLOW : Nat := 0x05
def STATE_QUIT : Nat := 0x06

/-! ## Message signing (codec.js `signMessage` / `verifyMessageSignature`)

`jodid25519.eddsa.sign/verify` are external primitives, taken as function
arguments `signf data privKey pubKey` and `verifyf signature data pubKey`. -/

/-- Message categories (codec.js `MESSAGE_TYPE`). -/
def MPENC_GREET_MESSAGE : Nat := 0x02
def MPENC_DATA_MESSAGE : Nat := 0x03

/-- ASCII of `"greetmsgsig"`. -/
def magicGREET : List Nat := [103, 114, 101, 101, 116, 109, 115, 103, 115, 105, 103]

/-- ASCII of `"datamsgsig"`. -/
def magicDATA : List Nat := [100, 97, 116, 97, 109, 115, 103, 115, 105, 103]

/-- The domain-separation prefix of codec.js `signMessage`: the category's
magic string, extended with the sidkey hash for data messages. -/
def signaturePad (category : Nat) (sidkeyHash : List Nat) : List Nat :=
  (if category = MPENC_GREET_MESSAGE then magicGREET
   else if category = MPENC_DATA_MESSAGE then magicDATA else []) ++
    (if category = MPENC_DATA_MESSAGE then sidkeyHash else [])

/-- codec.js `signMessage`. -/
def signMessage (signf : List Nat → List Nat → List Nat → List Nat)
    (category : Nat) (data privKey pubKey sidkeyHash : List Nat) : List Nat :=
  signf (signaturePad category sidkeyHash ++ data) privKey pubKey

/-- codec.js `verifyMessageSignature`. -/
def verifyMessageSignature (verifyf : List Nat → List Nat → List Nat → Bool)
    (category : Nat) (data signature pubKey sidkeyHash : List Nat) : Bool :=
  verifyf signature (signaturePad category sidkeyHash ++ data) pubKey

/-- codec.js `ENCODED_VERSION`: `encodeTLV(PROTOCOL_VERSION, '\u0001')`. -/
def ENCODED_VERSION : List Nat := encodeTLV tlvPROTOCOL_VERSION [1]

/-- Modelled from the spec: `codec.ENCODED_TYPE_DATA` / `codec.ENCODED_TYPE_GREET`
are referenced by message.js / greeter.js but absent from the src codec; §4.1
places a `MESSAGE_TYPE` record (value = the message category) after
`PROTOCOL_VERSION` in every payload. -/
def ENCODED_TYPE_DATA : List Nat := encodeTLV tlvMESSAGE_TYPE [MPENC_DATA_MESSAGE]

def ENCODED_TYPE_GREET : List Nat := encodeTLV tlvMESSAGE_TYPE [MPENC_GREET_MESSAGE]

/-- Modelled from the spec: `codec.popStandardFields` as called by message.js
and greeter.js (the src codec's version takes a type-filter callback that those
callers do not supply); §4.1: pop `PROTOCOL_VERSION` and check it, then pop the
`MESSAGE_TYPE` record and check the expected category. -/
def popStandardFields (msg : List Nat) (category : Nat) :
    Except String (List Nat) :=
  match popTLV msg tlvPROTOCOL_VERSION with
  | Except.error e => Except.error e
  | Except.ok (v, rest) =>
      if v = [1] then
        match popTLV rest tlvMESSAGE_TYPE with
        | Except.error e => Except.error e
        | Except.ok (t, rest2) =>
            if t = [category] then Except.ok rest2
            else Except.error "decode failed; expected message type mismatch"
      else Except.error "decode failed; expected PROTOCOL_VERSION mismatch"

/-- Modelled from the spec: `codec.encodeWirePacket` / `codec.decodeWirePacket`
(absent from the src codec, which has the equivalent `tlvToWire`/`wireToTLV`);
§4.1 wire framing. -/
def encodeWirePacket (contents : List Nat) : List Nat := tlvToWire contents

def decodeWirePacket (pubtxt : List Nat) : List Nat := wireToTLV pubtxt

/-! ## GreetStore (greeter.js) and MessageSecurity (message.js)

The fields of `GreetStore` that message.js reads.  `id` is documented on the
constructor and read by `authEncrypt` (`this._greetStore.id`), although the
src constructor body fails to bind it — see the C1 analysis, which models the
constructor call itself.  `pubKeyMap` is built from `members` and
`ephemeralPubKeys` by JavaScript object assignment. -/

structure GreetStore where
  id : List Nat
  opState : Nat
  members : List (List Nat)
  sessionId : List Nat
  ephemeralPrivKey : List Nat
  ephemeralPubKey : List Nat
  ephemeralPubKeys : List (List Nat)
  groupKey : List Nat

/-- The `pubKeyMap` the GreetStore constructor builds
(`pubKeyMap[members[i]] = ephemeralPubKeys[i]`). -/
def GreetStore.pubKeyMap (s : GreetStore) : List Nat → Option (List Nat) :=
  jsObjAssign (s.members.zip s.ephemeralPubKeys)

/-- The TLV record stream encrypted by `authEncrypt`: `MESSAGE_PARENT`
records, then the UTF-8-encoded `MESSAGE_BODY`. -/
def rawBodyOf (parents : List (List Nat)) (body : List Nat) : List Nat :=
  (parents.map (encodeTLV tlvMESSAGE_PARENT)).flatten ++
    encodeTLV tlvMESSAGE_BODY (utf8Encode body)

/-- The version/type/IV/payload segment of a data packet (the `content`
string that `authEncrypt` accumulates and signs).  String concatenation is
associative, so the nesting is immaterial. -/
def dataContent (iv cipher : List Nat) : List Nat :=
  ENCODED_VERSION ++ (ENCODED_TYPE_DATA ++
    (encodeTLV tlvMESSAGE_IV iv ++ encodeTLV tlvMESSAGE_PAYLOAD cipher))

/-- The full TLV payload `authEncrypt` assembles: `SIDKEY_HINT` (first byte of
the sidkey hash), detached `MESSAGE_SIGNATURE` over the content, content. -/
def authPacket (sha : List Nat → List Nat)
    (signkf : List Nat → List Nat → List Nat → List Nat)
    (store : GreetStore) (iv cipher : List Nat) : List Nat :=
  encodeTLV tlvSIDKEY_HINT ((sha (store.sessionId ++ store.groupKey)).take 1) ++
  (encodeTLV tlvMESSAGE_SIGNATURE
    (signMessage signkf MPENC_DATA_MESSAGE (dataContent iv cipher)
      store.ephemeralPrivKey store.ephemeralPubKey
      (sha (store.sessionId ++ store.groupKey))) ++
   dataContent iv cipher)

/-- message.js `MessageSecurity.prototype.authEncrypt`.  The asserts
(`message.author === this._greetStore.id` and the readers/members set
equality, `ImmutableSet.equals`) are the two guards; the RNG nonce and the
crypto primitives are explicit arguments.  Returns the wire-encoded pubtxt. -/
def authEncrypt (sha : List Nat → List Nat)
    (signkf : List Nat → List Nat → List Nat → List Nat)
    (ks : List Nat → List Nat → Nat → List Nat) (nonce : List Nat)
    (store : GreetStore) (paddingSize : Nat) (author : List Nat)
    (parents : List (List Nat)) (readers : List (List Nat)) (body : List Nat) :
    Except String (List Nat) :=
  if author = store.id then
    if insert store.id readers.toFinset = store.members.toFinset then
      match _encryptRaw (aesCTR ks) nonce (rawBodyOf parents body)
          store.groupKey paddingSize with
      | Except.error e => Except.error e
      | Except.ok (cipher, iv) =>
          Except.ok (encodeWirePacket (authPacket sha signkf store iv cipher))
    else Except.error "Readers not members of session"
  else Except.error "authEncrypt author is not the store owner"

/-- The verified plaintext message `decryptVerify` returns. -/
structure DecryptedMessage where
  author : List Nat
  parents : List (List Nat)
  readers : List (List Nat)
  body : List Nat
  deriving Repr, DecidableEq

/-- message.js `_inspectMessage` followed by `decryptVerify`'s checks and
`_decrypt`/`_decodeMessage`/`_decryptRaw`: strip `SIDKEY_HINT` (must be one
byte) and `MESSAGE_SIGNATURE`, verify the signature over the rest, pop the
standard fields, `MESSAGE_IV` and `MESSAGE_PAYLOAD`, AES-CTR-decrypt and
strip length/padding, parse `MESSAGE_PARENT`* and `MESSAGE_BODY`, UTF-8
decode, and return author/parents/readers/body with
`readers = members` minus the author's first occurrence (`splice` at
`indexOf`). -/
def decryptVerify (sha : List Nat → List Nat)
    (verifyf : List Nat → List Nat → List Nat → Bool)
    (ks : List Nat → List Nat → Nat → List Nat) (store : GreetStore)
    (pubtxt : List Nat) (authorHint : List Nat) :
    Except String DecryptedMessage :=
  if authorHint = [] then Except.error "No message author for message available"
  else
    match popTLV (decodeWirePacket pubtxt) tlvSIDKEY_HINT with
    | Except.error e => Except.error e
    | Except.ok (hint, rest1) =>
        if hint.length = 1 then
          match popTLV rest1 tlvMESSAGE_SIGNATURE with
          | Except.error e => Except.error e
          | Except.ok (signature, rawMessage) =>
              match store.pubKeyMap authorHint with
              | none => Except.error "no key found for author"
              | some signingPubKey =>
                  if verifyMessageSignature verifyf MPENC_DATA_MESSAGE rawMessage
                      signature signingPubKey
                      (sha (store.sessionId ++ store.groupKey)) then
                    match popStandardFields rawMessage MPENC_DATA_MESSAGE with
                    | Except.error e => Except.error e
                    | Except.ok rest2 =>
                        match popTLV rest2 tlvMESSAGE_IV with
                        | Except.error e => Except.error e
                        | Except.ok (iv, rest3) =>
                            match popTLV rest3 tlvMESSAGE_PAYLOAD with
                            | Except.error e => Except.error e
                            | Except.ok (data, _) =>
                                if data = [] then
                                  Except.error "no payload data"
                                else
                                  match popTLVAll
                                      (_decryptRaw (aesCTR ks) data store.groupKey iv)
                                      tlvMESSAGE_PARENT with
                                  | Except.error e => Except.error e
                                  | Except.ok (parents, rest4) =>
                                      match popTLV rest4 tlvMESSAGE_BODY with
                                      | Except.error e => Except.error e
                                      | Except.ok (bodyRaw, _) =>
                                          match utf8Decode bodyRaw with
                                          | none => Except.error "URIError: malformed UTF-8"
                                          | some body =>
                                              if authorHint ∈ store.members then
                                                Except.ok ⟨authorHint, parents,
                                                  store.members.erase authorHint, body⟩
                                              else Except.error "author is not a member"
                  else Except.error "bad signature"
        else Except.error "unexpected length for SIDKEY_HINT"

/-! ## Byte-string bookkeeping for the round-trip proofs -/

/-- All elements are bytes. -/
def isBytes (l : List Nat) : Prop := ∀ b ∈ l, b < 256

theorem isBytes_append {a b : List Nat} (ha : isBytes a) (hb : isBytes b) :
    isBytes (a ++ b) := by
  intro x hx
  rcases List.mem_append.mp hx with h | h
  · exact ha x h
  · exact hb x h

theorem isBytes_short2bin {n : Nat} (h : n < 65536) : isBytes (short2bin n) := by
  intro b hb
  simp only [short2bin, List.mem_cons, List.not_mem_nil, or_false] at hb
  rcases hb with hb | hb <;> omega

theorem isBytes_encodeTLV {t : Nat} {v : List Nat} (ht : t < 65536)
    (hl : v.length < 65536) (hv : isBytes v) : isBytes (encodeTLV t v) := by
  unfold encodeTLV
  exact isBytes_append (isBytes_append (isBytes_short2bin ht)
    (isBytes_short2bin hl)) hv

theorem isBytes_flatten {xs : List (List Nat)} (h : ∀ x ∈ xs, isBytes x) :
    isBytes xs.flatten := by
  intro b hb
  obtain ⟨x, hx, hbx⟩ := List.mem_flatten.mp hb
  exact h x hx b hbx

theorem isBytes_replicate0 {n : Nat} : isBytes (List.replicate n 0) := by
  intro b hb
  rw [List.eq_of_mem_replicate hb]
  norm_num

theorem isBytes_zipWith_xor {a b : List Nat} (ha : isBytes a) (hb : isBytes b) :
    isBytes (a.zipWith (· ^^^ ·) b) := by
  intro x hx
  rw [List.mem_iff_get] at hx
  obtain ⟨i, hi⟩ := hx
  rw [List.get_zipWith] at hi
  subst hi
  have h256 : (256 : Nat) = 2 ^ 8 := by norm_num
  rw [h256]
  apply Nat.xor_lt_two_pow
  · rw [← h256]
    exact ha _ (List.get_mem _ _ _)
  · rw [← h256]
    exact hb _ (List.get_mem _ _ _)

theorem isBytes_aesCTR {ks : List Nat → List Nat → Nat → List Nat}
    (hks : ∀ key iv n, isBytes (ks key iv n)) {data : List Nat}
    (hdata : isBytes data) (key iv : List Nat) :
    isBytes (aesCTR ks data key iv) :=
  isBytes_zipWith_xor hdata (hks key iv data.length)

/-- `paddedPlain` decomposes as length prefix, data, zero padding. -/
theorem paddedPlain_decompose (d : List Nat) (P : Nat) :
    ∃ z, paddedPlain d P = short2bin d.length ++ (d ++ List.replicate z 0) := by
  unfold paddedPlain
  by_cases h : P = 0
  · exact ⟨0, by simp [h]⟩
  · refine ⟨P * 2 ^ Nat.clog 2 ((d.length + 2 + P - 1) / P) + 1 -
      (d.length + 2) - 1, by simp [h]⟩

theorem isBytes_paddedPlain {d : List Nat} (P : Nat) (hd : isBytes d)
    (hlen : d.length < 65536) : isBytes (paddedPlain d P) := by
  obtain ⟨z, hz⟩ := paddedPlain_decompose d P
  rw [hz]
  exact isBytes_append (isBytes_short2bin hlen)
    (isBytes_append hd isBytes_replicate0)

theorem paddedPlain_length_ge (d : List Nat) (P : Nat) :
    d.length + 2 ≤ (paddedPlain d P).length := by
  obtain ⟨z, hz⟩ := paddedPlain_decompose d P
  rw [hz]
  simp only [List.length_append, List.length_replicate, short2bin,
    List.length_cons, List.length_nil]
  omega

/-- Stripping the u16 prefix and padding from `paddedPlain` recovers the data
(this is what `_decryptRaw` computes after AES). -/
theorem paddedPlain_strip (d : List Nat) (P : Nat) (hlen : d.length < 65536) :
    ((paddedPlain d P).drop 2).take (bin2short ((paddedPlain d P).take 2)) = d := by
  obtain ⟨z, hz⟩ := paddedPlain_decompose d P
  rw [hz]
  have htake : (short2bin d.length ++ (d ++ List.replicate z 0)).take 2 =
      short2bin d.length := List.take_left' (by simp [short2bin])
  have hdrop : (short2bin d.length ++ (d ++ List.replicate z 0)).drop 2 =
      d ++ List.replicate z 0 := List.drop_left' (by simp [short2bin])
  rw [htake, hdrop, bin2short_short2bin d.length hlen, List.take_left]

/-- `popTLVAll` consumes a run of same-typed records and stops at the rest. -/
theorem popTLVAll_flatten (ty : Nat) (vs : List (List Nat)) (rest : List Nat)
    (hty : ty < 65536) (hlen : ∀ v ∈ vs, v.length < 65536)
    (hstop : popTLVAll rest ty = Except.ok ([], rest)) :
    popTLVAll ((vs.map (encodeTLV ty)).flatten ++ rest) ty =
      Except.ok (vs, rest) := by
  induction vs with
  | nil => simpa using hstop
  | cons v vs ih =>
      have hv : v.length < 65536 := hlen v (by simp)
      have hvs : ∀ x ∈ vs, x.length < 65536 := fun x hx => hlen x (by simp [hx])
      rw [show ((v :: vs).map (encodeTLV ty)).flatten ++ rest =
          encodeTLV ty v ++ ((vs.map (encodeTLV ty)).flatten ++ rest) from by
        simp]
      rw [popTLVAll_encodeTLV_cons ty v _ hty hv, ih hvs]

/-! ## C6: the AES key used by `authEncrypt`/`_encryptRaw`

`_encryptRaw` passes its `key` argument to `asmCrypto.AES_CTR.encrypt` whole
(`utils.string2bytes(key)`, no truncation), and `authEncrypt` passes
`groupKey` whole; the claim that the AES key is exactly the *first 16 bytes*
of the group key fails whenever the group key is longer than 16 bytes. -/

/-- C6 counterexample: with a 32-byte group key, the key handed to the AES
primitive by `_encryptRaw` (observed by instantiating the primitive with its
key projection) is the entire group key, which differs from its first 16
bytes.  The claimed key `groupKey[0..16]` is therefore not the key used. -/
theorem encryptRaw_key_cex :
    _encryptRaw (fun _ key _ => key) (List.replicate 12 0) [7] (List.range 32) 0 =
        Except.ok (List.range 32, List.replicate 12 0) ∧
      List.take 16 (List.range 32) ≠ List.range 32 := by
  constructor
  · rfl
  · decide

/-- C6 amended: `authEncrypt` on a store (whatever its group-key length)
AES-CTR-encrypts with key the store's *entire* `groupKey` — equal to the
first 16 bytes only when the group key is at most 16 bytes long — and with
counter block the fresh 12-byte nonce followed by four zero bytes; the nonce
is returned as the `MESSAGE_IV` record (inside `dataContent`). -/
theorem authEncrypt_key_and_counter (sha : List Nat → List Nat)
    (signkf : List Nat → List Nat → List Nat → List Nat)
    (ks : List Nat → List Nat → Nat → List Nat) (nonce : List Nat)
    (store : GreetStore) (P : Nat) (author : List Nat)
    (parents : List (List Nat)) (readers : List (List Nat)) (body : List Nat)
    (h1 : author = store.id)
    (h2 : insert store.id readers.toFinset = store.members.toFinset)
    (h3 : (rawBodyOf parents body).length < 65535) :
    authEncrypt sha signkf ks nonce store P author parents readers body =
      Except.ok (encodeWirePacket (authPacket sha signkf store nonce
        (aesCTR ks (paddedPlain (rawBodyOf parents body) P) store.groupKey
          (nonce ++ [0, 0, 0, 0])))) := by
  unfold authEncrypt
  rw [if_pos h1, if_pos h2]
  unfold _encryptRaw
  rw [if_pos h3]

/-- C6 amended witness: concrete store with a 32-byte group key, empty
parents, one-byte body. -/
theorem authEncrypt_key_and_counter_wtn :
    authEncrypt (fun l => l) (fun m _ _ => m.take 4) (fun _ _ n => List.replicate n 0)
        (List.replicate 12 9)
        ⟨[65], STATE_READY, [[65]], [1, 2], [3], [4], [[4]], List.range 32⟩ 0
        [65] [] [] [66] =
      Except.ok (encodeWirePacket (authPacket (fun l => l) (fun m _ _ => m.take 4)
        ⟨[65], STATE_READY, [[65]], [1, 2], [3], [4], [[4]], List.range 32⟩
        (List.replicate 12 9)
        (aesCTR (fun _ _ n => List.replicate n 0) (paddedPlain (rawBodyOf [] [66]) 0)
          (List.range 32) (List.replicate 12 9 ++ [0, 0, 0, 0])))) :=
  authEncrypt_key_and_counter (fun l => l) (fun m _ _ => m.take 4)
    (fun _ _ n => List.replicate n 0) (List.replicate 12 9)
    ⟨[65], STATE_READY, [[65]], [1, 2], [3], [4], [[4]], List.range 32⟩ 0
    [65] [] [] [66] (by decide) (by decide) (by decide)

/-! ## C1: `Greeting.getResultState` and the `GreetStore` constructor

greeter.js `getResultState` passes twelve arguments (starting with `this.id`)
to the eleven-parameter `GreetStore` constructor, so every argument lands one
parameter early and the final `cliquesMember.intKeys` argument is dropped.
The constructor handles its arguments with JavaScript value semantics
(truthiness, `||` defaulting, strict equality), modelled by `JsVal`. -/

inductive JsVal where
  | vNull : JsVal
  | vNum : Nat → JsVal
  | vStr : List Nat → JsVal
  | vArr : List JsVal → JsVal

/-- JavaScript ToBoolean on the values arising in the embedded calls. -/
def jsTruthy : JsVal → Bool
  | JsVal.vNull => false
  | JsVal.vNum n => n != 0
  | JsVal.vStr s => s != []
  | JsVal.vArr _ => true

/-- JavaScript `a || b`. -/
def jsOrElse (v d : JsVal) : JsVal := if jsTruthy v then v else d

/-- JavaScript `v === n` for a number `n` (strict equality is false across
types). -/
def jsStrictEqNum (v : JsVal) (n : Nat) : Bool :=
  match v with
  | JsVal.vNum m => m == n
  | _ => false

/-- The `.length` property: strings and arrays have one; other values give
`undefined` (so `a.length === b.length` is JS-true for two such values). -/
def jsLen : JsVal → Option Nat
  | JsVal.vStr s => some s.length
  | JsVal.vArr l => some l.length
  | _ => none

/-- The fields the `GreetStore` constructor assigns (`pubKeyMap` is derived
from `members`/`ephemeralPubKeys` and omitted). -/
structure GreetStoreJs where
  _opState : JsVal
  members : JsVal
  sessionId : JsVal
  ephemeralPrivKey : JsVal
  ephemeralPubKey : JsVal
  nonce : JsVal
  ephemeralPubKeys : JsVal
  nonces : JsVal
  groupKey : JsVal
  privKeyList : JsVal
  intKeys : JsVal

/-- greeter.js `GreetStore` constructor: `this._opState = state || NULL`,
assert `_opState === READY || _opState === NULL` (the source appends
`STATE_MAPPING[state]` to the assert text), each field defaulted with `||`
(`utils.clone` is the identity on the modelled pure values), and — when
`members` is truthy — the `ephemeralPubKeys` presence and length asserts. -/
def GreetStoreCtor (state members sessionId ephemeralPrivKey ephemeralPubKey
    nonce ephemeralPubKeys nonces groupKey privKeyList intKeys : JsVal) :
    Except String GreetStoreJs :=
  if jsStrictEqNum (jsOrElse state (JsVal.vNum STATE_NULL)) STATE_READY ||
      jsStrictEqNum (jsOrElse state (JsVal.vNum STATE_NULL)) STATE_NULL then
    if jsTruthy members then
      if jsTruthy ephemeralPubKeys then
        if jsLen members = jsLen ephemeralPubKeys then
          Except.ok ⟨jsOrElse state (JsVal.vNum STATE_NULL),
            jsOrElse members (JsVal.vArr []), jsOrElse sessionId JsVal.vNull,
            jsOrElse ephemeralPrivKey JsVal.vNull,
            jsOrElse ephemeralPubKey JsVal.vNull, jsOrElse nonce JsVal.vNull,
            jsOrElse ephemeralPubKeys JsVal.vNull, jsOrElse nonces JsVal.vNull,
            jsOrElse groupKey JsVal.vNull, jsOrElse privKeyList (JsVal.vArr []),
            jsOrElse intKeys (JsVal.vArr [])⟩
        else Except.error "Length of members/pub keys mismatch"
      else Except.error "ephemeral pubkeys null when members present."
    else
      Except.ok ⟨jsOrElse state (JsVal.vNum STATE_NULL),
        jsOrElse members (JsVal.vArr []), jsOrElse sessionId JsVal.vNull,
        jsOrElse ephemeralPrivKey JsVal.vNull,
        jsOrElse ephemeralPubKey JsVal.vNull, jsOrElse nonce JsVal.vNull,
        jsOrElse ephemeralPubKeys JsVal.vNull, jsOrElse nonces JsVal.vNull,
        jsOrElse groupKey JsVal.vNull, jsOrElse privKeyList (JsVal.vArr []),
        jsOrElse intKeys (JsVal.vArr [])⟩
  else
    Except.error "tried to create a GreetStore on a state other than NULL or READY"

/-- The Greeting fields that `getResultState` reads. -/
structure GreetingState where
  id : List Nat
  opState : Nat
  askeMembers : List (List Nat)
  askeSessionId : List Nat
  askeEphemeralPrivKey : List Nat
  askeEphemeralPubKey : List Nat
  askeNonce : List Nat
  askeEphemeralPubKeys : List (List Nat)
  askeNonces : List (List Nat)
  cliquesGroupKey : List Nat
  cliquesPrivKeyList : List (List Nat)
  cliquesIntKeys : List (List Nat)
  deriving Repr, DecidableEq

/-- greeter.js `Greeting.prototype.getResultState`: the "Greeting not yet
finished" guard, then `new GreetStore(this.id, this._opState,
askeMember.members, …, cliquesMember.privKeyList, cliquesMember.intKeys)` —
twelve arguments to the eleven-parameter constructor, so `this.id` arrives as
`state`, `this._opState` as `members`, and so on; the final
`cliquesMember.intKeys` argument has no parameter and is dropped. -/
def getResultState (g : GreetingState) : Except String GreetStoreJs :=
  if g.opState = STATE_READY then
    GreetStoreCtor (JsVal.vStr g.id) (JsVal.vNum g.opState)
      (JsVal.vArr (g.askeMembers.map JsVal.vStr)) (JsVal.vStr g.askeSessionId)
      (JsVal.vStr g.askeEphemeralPrivKey) (JsVal.vStr g.askeEphemeralPubKey)
      (JsVal.vStr g.askeNonce)
      (JsVal.vArr (g.askeEphemeralPubKeys.map JsVal.vStr))
      (JsVal.vArr (g.askeNonces.map JsVal.vStr)) (JsVal.vStr g.cliquesGroupKey)
      (JsVal.vArr (g.cliquesPrivKeyList.map JsVal.vStr))
  else Except.error "Greeting not yet finished"

/-- C1: contrary to the claim, `getResultState` never returns a store for a
member whose id is non-empty.  Because the twelve arguments are shifted
across the eleven constructor parameters, `this.id` arrives as the
constructor's `state`; a non-empty id string is truthy and is not strictly
equal to the `READY` or `NULL` state numbers, so in the READY case the
constructor's state assertion raises and no store is created.  (In the
non-READY case the "Greeting not yet finished" guard raises, as the claim
says.) -/
theorem getResultState_always_raises (g : GreetingState) (hid : g.id ≠ []) :
    (g.opState = STATE_READY →
      getResultState g = Except.error
        "tried to create a GreetStore on a state other than NULL or READY") ∧
    (g.opState ≠ STATE_READY →
      getResultState g = Except.error "Greeting not yet finished") := by
  constructor
  · intro hready
    unfold getResultState
    rw [if_pos hready]
    have h1 : jsOrElse (JsVal.vStr g.id) (JsVal.vNum STATE_NULL) =
        JsVal.vStr g.id := by
      unfold jsOrElse
      rw [if_pos (show jsTruthy (JsVal.vStr g.id) = true from by
        simp [jsTruthy, hid])]
    unfold GreetStoreCtor
    rw [if_neg (show ¬((jsStrictEqNum
        (jsOrElse (JsVal.vStr g.id) (JsVal.vNum STATE_NULL)) STATE_READY ||
        jsStrictEqNum (jsOrElse (JsVal.vStr g.id) (JsVal.vNum STATE_NULL))
          STATE_NULL) = true) from by
      rw [h1]
      simp [jsStrictEqNum])]
  · intro hnot
    unfold getResultState
    rw [if_neg hnot]

/-- C1 witness: a concrete READY Greeting with id "A". -/
theorem getResultState_always_raises_wtn :
    getResultState ⟨[65], STATE_READY, [[65]], [1], [2], [3], [4], [[2]],
        [[3]], [5], [[6]], [[7]]⟩ =
      Except.error
        "tried to create a GreetStore on a state other than NULL or READY" :=
  (getResultState_always_raises
    ⟨[65], STATE_READY, [[65]], [1], [2], [3], [4], [[2]], [[3]], [5], [[6]],
      [[7]]⟩ (by decide)).1 rfl

/-! ## C5: `_processMessage` early drop/quit rules -/

/-- The decoded fields of an inbound greet message that the early rules of
`_processMessage` inspect. -/
structure GreetMsgIn where
  source : List Nat
  dest : List Nat
  members : List (List Nat)
  deriving Repr, DecidableEq

/-- greeter.js `Greeting.prototype._processMessage`, early logic (up to the
QUIT/upflow/downflow state-transition cases, which the claim does not touch):
return null in state QUIT; when the inbound member list is non-empty and
omits the local id, return `{decodedMessage: null, newState: QUIT}`; drop
messages whose dest is neither broadcast nor the local id, and messages from
self.  The state-transition processing that follows is abstracted as
`restResult`, the value the remainder of the function would return. -/
def _processMessage (α : Type) (restResult : Option (Option α × Option Nat))
    (opState : Nat) (id : List Nat) (message : GreetMsgIn) :
    Option (Option α × Option Nat) :=
  if opState = STATE_QUIT then none
  else if message.members ≠ [] ∧ id ∉ message.members then
    if opState ≠ STATE_QUIT then some (none, some STATE_QUIT) else none
  else if message.dest ≠ [] ∧ message.dest ≠ id then none
  else if message.source = id then none
  else restResult

/-- C5: while the Greeting is not in state QUIT, an inbound message whose
member list is non-empty and omits the local id makes `_processMessage`
return a QUIT transition with no outbound message, whatever its dest and
source (the not-a-member rule precedes the drop rules); and when that rule
does not fire, the two drop rules (dest neither broadcast nor the local id;
source equal to the local id) return null — no output, no state change —
whatever the remainder of the function would produce. -/
theorem processMessage_not_member_quits (α : Type)
    (restResult : Option (Option α × Option Nat)) (opState : Nat)
    (id : List Nat) (message : GreetMsgIn)
    (hnq : opState ≠ STATE_QUIT) :
    (message.members ≠ [] → id ∉ message.members →
      _processMessage α restResult opState id message =
        some (none, some STATE_QUIT)) ∧
    ((message.members = [] ∨ id ∈ message.members) →
      message.dest ≠ [] → message.dest ≠ id →
      _processMessage α restResult opState id message = none) ∧
    ((message.members = [] ∨ id ∈ message.members) →
      (message.dest = [] ∨ message.dest = id) → message.source = id →
      _processMessage α restResult opState id message = none) := by
  refine ⟨?_, ?_, ?_⟩
  · intro h1 h2
    unfold _processMessage
    rw [if_neg hnq, if_pos ⟨h1, h2⟩, if_pos hnq]
  · intro h1 h2 h3
    unfold _processMessage
    rw [if_neg hnq, if_neg (show ¬(message.members ≠ [] ∧
        id ∉ message.members) from by
      intro hc
      rcases h1 with h1 | h1
      · exact hc.1 h1
      · exact hc.2 h1), if_pos ⟨h2, h3⟩]
  · intro h1 h2 h3
    unfold _processMessage
    rw [if_neg hnq, if_neg (show ¬(message.members ≠ [] ∧
        id ∉ message.members) from by
      intro hc
      rcases h1 with h1 | h1
      · exact hc.1 h1
      · exact hc.2 h1), if_neg (show ¬(message.dest ≠ [] ∧
        message.dest ≠ id) from by
      intro hc
      rcases h2 with h2 | h2
      · exact hc.1 h2
      · exact hc.2 h2), if_pos h3]

/-- C5 witness: in state READY, a message whose member list omits the local
id "A" — though its dest is a third party, which the later drop rule would
ignore — yields the QUIT transition with no output. -/
theorem processMessage_not_member_quits_wtn :
    _processMessage Unit none STATE_READY [65]
        ⟨[66], [67], [[66], [67]]⟩ = some (none, some STATE_QUIT) :=
  (processMessage_not_member_quits Unit none STATE_READY [65]
    ⟨[66], [67], [[66], [67]]⟩ (by decide)).1 (by decide) (by decide)

/-! ## C3: the `SIGNING_KEY` record is emitted only on QUIT -/

/-- greeter.js `GreetMessage` attribute record as assembled by
`_mergeMessages` and consumed by `encodeGreetMessage` (absent object fields
are `none`; the metadata triple is `(prevPf, prevCh, parents)`). -/
structure GreetMessage where
  greetType : Nat × Nat
  source : List Nat
  dest : List Nat
  members : Option (List (List Nat))
  intKeys : Option (List (List Nat))
  nonces : Option (List (List Nat))
  pubKeys : Option (List (List Nat))
  metadata : Option (List Nat × List Nat × List (List Nat))
  sessionSignature : Option (List Nat)
  signingKey : Option (List Nat)
  deriving Repr, DecidableEq

/-- The outbound message of the CLIQUES sub-protocol, as read by
`_mergeMessages`. -/
structure CliquesMessage where
  source : List Nat
  dest : List Nat
  members : Option (List (List Nat))
  intKeys : Option (List (List Nat))
  deriving Repr, DecidableEq

/-- The outbound message of the ASKE sub-protocol, as read by
`_mergeMessages`. -/
structure AskeMessage where
  source : List Nat
  dest : List Nat
  members : Option (List (List Nat))
  nonces : Option (List (List Nat))
  pubKeys : Option (List (List Nat))
  sessionSignature : Option (List Nat)
  signingKey : Option (List Nat)
  deriving Repr, DecidableEq

/-- JavaScript `a || b` for strings (the empty string is falsy). -/
def strOrElse (a b : List Nat) : List Nat := if a = [] then b else a

/-- JavaScript `a || b` for possibly-absent object fields (arrays and present
values are truthy; `undefined` and `null` are falsy). -/
def optOrElse {α : Type} (a b : Option α) : Option α :=
  match a with
  | some x => some x
  | none => b

/-- greeter.js `Greeting.prototype._mergeMessages`: null when both inputs are
null; asserts that the sources and dests agree when both are present (the
source has two separate asserts); otherwise combines the fields, taking
`signingKey` (and `nonces`, `pubKeys`, `sessionSignature`) from the ASKE
message only, and sets `source` to the local id.  The caller stamps
`greetType` afterwards (`new GreetMessage()` leaves it zero). -/
def _mergeMessages (id : List Nat) (cliquesMessage : Option CliquesMessage)
    (askeMessage : Option AskeMessage) : Except String (Option GreetMessage) :=
  match cliquesMessage, askeMessage with
  | none, none => Except.ok none
  | cm, am =>
      if (match cm, am with
          | some c, some a => c.source == a.source && c.dest == a.dest
          | _, _ => true) then
        Except.ok (some {
          greetType := (0, 0),
          source := id,
          dest := strOrElse (match cm with | some c => c.dest | none => [])
            (match am with | some a => a.dest | none => []),
          members := optOrElse (Option.bind cm CliquesMessage.members)
            (Option.bind am AskeMessage.members),
          intKeys := Option.bind cm CliquesMessage.intKeys,
          nonces := Option.bind am AskeMessage.nonces,
          pubKeys := Option.bind am AskeMessage.pubKeys,
          metadata := none,
          sessionSignature := Option.bind am AskeMessage.sessionSignature,
          signingKey := Option.bind am AskeMessage.signingKey })
      else Except.error "Message source mismatch, this shouldn't happen."

/-- An optional record: `if (message.x) { out += encodeTLV(T, message.x); }`. -/
def optTLVRecord (t : Nat) (o : Option (List Nat)) : List Nat :=
  match o with
  | some v => encodeTLV t v
  | none => []

/-- An optional record array:
`if (message.xs) { out += _encodeTlvArray(T, message.xs); }`. -/
def optTLVArrayRecord (t : Nat) (o : Option (List (List Nat))) : List Nat :=
  match o with
  | some vs => encodeTlvArray t vs
  | none => []

/-- The optional metadata records (`PREV_PF`, `CHAIN_HASH`, `LATEST_PM`*). -/
def optMetaRecord (o : Option (List Nat × List Nat × List (List Nat))) :
    List Nat :=
  match o with
  | some md =>
      encodeTLV tlvPREV_PF md.1 ++
        (encodeTLV tlvCHAIN_HASH md.2.1 ++ encodeTlvArray tlvLATEST_PM md.2.2)
  | none => []

/-- greeter.js `encodeGreetMessage`, the TLV content after version and type:
greetType, source, dest, then the optional members, intKeys, nonces, pubKeys,
metadata, sessionSignature and signingKey records, in source order. -/
def encodeGreetMessageContent (m : GreetMessage) : List Nat :=
  ENCODED_VERSION ++ (ENCODED_TYPE_GREET ++
    (encodeTLV tlvGREET_TYPE [m.greetType.1, m.greetType.2] ++
      (encodeTLV tlvSOURCE m.source ++
        (encodeTLV tlvDEST m.dest ++
          (optTLVArrayRecord tlvMEMBER m.members ++
            (optTLVArrayRecord tlvINT_KEY m.intKeys ++
              (optTLVArrayRecord tlvNONCE m.nonces ++
                (optTLVArrayRecord tlvPUB_KEY m.pubKeys ++
                  (optMetaRecord m.metadata ++
                    (optTLVRecord tlvSESSION_SIGNATURE m.sessionSignature ++
                      optTLVRecord tlvSIGNING_KEY m.signingKey))))))))))

/-- greeter.js `encodeGreetMessage`: the content, signed (category
`MPENC_GREET_MESSAGE`, no sidkey hash) and prefixed with the detached
`MESSAGE_SIGNATURE` record. -/
def encodeGreetMessage (signkf : List Nat → List Nat → List Nat → List Nat)
    (m : GreetMessage) (privKey pubKey : List Nat) : List Nat :=
  encodeTLV tlvMESSAGE_SIGNATURE
    (signMessage signkf MPENC_GREET_MESSAGE (encodeGreetMessageContent m)
      privKey pubKey []) ++
  encodeGreetMessageContent m

/-- Modelled from the spec: ske.js `SignatureKeyExchangeMember.quit` (src has
only an early ske.js prototype without it); §4.3: "quit() — emit own
ephemeral private key (the `SIGNING_KEY` TLV)" — the outbound ASKE quit
message carries the member's ephemeral private key as `signingKey`. -/
def askeQuitMessage (source ephemeralPrivKey : List Nat) : AskeMessage :=
  { source := source, dest := [], members := none, nonces := none,
    pubKeys := none, sessionSignature := none,
    signingKey := some ephemeralPrivKey }

/-- Modelled from the spec (§4.3, §5): the packets a Greeting emits.  Every
greeter.js operation except `quit` (`start`/`include`/`exclude`/`refresh` and
the up/downflow responses of `_processMessage`) builds its packet with
`_mergeMessages` from sub-protocol messages whose ASKE part carries no
`signingKey` (§4.3 lists `signingKey` only for `quit()`), then stamps a
greet-type (possibly adjusting bits with `_setBit`); `quit()` merges the ASKE
quit message — which carries the ephemeral private key — and stamps
`QUIT_DOWN`. -/
inductive GreetingEmission (id : List Nat) : GreetMessage → Prop where
  | op : ∀ (cm : Option CliquesMessage) (am : Option AskeMessage)
        (gt : Nat × Nat) (m : GreetMessage),
      (∀ a, am = some a → a.signingKey = none) →
      _mergeMessages id cm am = Except.ok (some m) →
      GreetingEmission id { m with greetType := gt }
  | quit : ∀ (source ephemeralPrivKey : List Nat) (m : GreetMessage),
      _mergeMessages id none (some (askeQuitMessage source ephemeralPrivKey)) =
        Except.ok (some m) →
      GreetingEmission id { m with greetType := QUIT_DOWN }

theorem scanTLVTypes_nil : scanTLVTypes [] = [] := by
  rw [scanTLVTypes]

theorem containsTLVType_iff (ty : Nat) (msg : List Nat) :
    containsTLVType ty msg = true ↔ ty ∈ scanTLVTypes msg := by
  unfold containsTLVType
  simp

theorem mem_scanTLVTypes_encodeTLV (t ty : Nat) (v rest : List Nat)
    (ht : t < 65536) (hv : v.length < 65536) :
    ty ∈ scanTLVTypes (encodeTLV t v ++ rest) ↔
      (ty = t ∨ ty ∈ scanTLVTypes rest) := by
  rw [scanTLVTypes_cons t v rest ht hv]
  simp

theorem mem_scanTLVTypes_optTLV (t ty : Nat) (o : Option (List Nat))
    (rest : List Nat) (ht : t < 65536)
    (ho : ∀ v, o = some v → v.length < 65536) :
    ty ∈ scanTLVTypes (optTLVRecord t o ++ rest) ↔
      ((ty = t ∧ o ≠ none) ∨ ty ∈ scanTLVTypes rest) := by
  cases o with
  | none => simp [optTLVRecord]
  | some v =>
      rw [show optTLVRecord t (some v) = encodeTLV t v from rfl]
      rw [mem_scanTLVTypes_encodeTLV t ty v rest ht (ho v rfl)]
      simp

theorem mem_scanTLVTypes_optTLV_last (t ty : Nat) (o : Option (List Nat))
    (ht : t < 65536) (ho : ∀ v, o = some v → v.length < 65536) :
    ty ∈ scanTLVTypes (optTLVRecord t o) ↔ (ty = t ∧ o ≠ none) := by
  cases o with
  | none => simp [optTLVRecord, scanTLVTypes_nil]
  | some v =>
      rw [show optTLVRecord t (some v) = encodeTLV t v from rfl]
      rw [show encodeTLV t v = encodeTLV t v ++ [] from
        (List.append_nil _).symm]
      rw [mem_scanTLVTypes_encodeTLV t ty v [] ht (ho v rfl)]
      simp [scanTLVTypes_nil]

theorem mem_scanTLVTypes_tlvArray (t ty : Nat) (vs : List (List Nat))
    (rest : List Nat) (ht : t < 65536)
    (hvs : ∀ v ∈ vs, v.length < 65536) :
    ty ∈ scanTLVTypes (encodeTlvArray t vs ++ rest) ↔
      ((ty = t ∧ vs ≠ []) ∨ ty ∈ scanTLVTypes rest) := by
  induction vs with
  | nil => simp [encodeTlvArray]
  | cons v vs ih =>
      rw [show encodeTlvArray t (v :: vs) ++ rest =
          encodeTLV t v ++ (encodeTlvArray t vs ++ rest) from by
        simp [encodeTlvArray]]
      rw [mem_scanTLVTypes_encodeTLV t ty v _ ht (hvs v (by simp))]
      rw [ih (fun x hx => hvs x (by simp [hx]))]
      constructor
      · rintro (rfl | (⟨rfl, -⟩ | h))
        · exact Or.inl ⟨rfl, by simp⟩
        · exact Or.inl ⟨rfl, by simp⟩
        · exact Or.inr h
      · rintro (⟨rfl, -⟩ | h)
        · exact Or.inl rfl
        · exact Or.inr (Or.inr h)

theorem mem_scanTLVTypes_optArray (t ty : Nat)
    (o : Option (List (List Nat))) (rest : List Nat) (ht : t < 65536)
    (ho : ∀ vs, o = some vs → ∀ v ∈ vs, v.length < 65536) :
    ty ∈ scanTLVTypes (optTLVArrayRecord t o ++ rest) ↔
      ((ty = t ∧ ∃ vs, o = some vs ∧ vs ≠ []) ∨ ty ∈ scanTLVTypes rest) := by
  cases o with
  | none => simp [optTLVArrayRecord]
  | some vs =>
      rw [show optTLVArrayRecord t (some vs) = encodeTlvArray t vs from rfl]
      rw [mem_scanTLVTypes_tlvArray t ty vs rest ht (ho vs rfl)]
      simp

theorem mem_scanTLVTypes_optMeta (ty : Nat)
    (o : Option (List Nat × List Nat × List (List Nat))) (rest : List Nat)
    (hne1 : ty ≠ tlvPREV_PF) (hne2 : ty ≠ tlvCHAIN_HASH)
    (hne3 : ty ≠ tlvLATEST_PM)
    (ho : ∀ md, o = some md → md.1.length < 65536 ∧ md.2.1.length < 65536 ∧
        ∀ p ∈ md.2.2, p.length < 65536) :
    ty ∈ scanTLVTypes (optMetaRecord o ++ rest) ↔ ty ∈ scanTLVTypes rest := by
  cases o with
  | none => simp [optMetaRecord]
  | some md =>
      obtain ⟨h1, h2, h3⟩ := ho md rfl
      rw [show optMetaRecord (some md) =
          encodeTLV tlvPREV_PF md.1 ++
            (encodeTLV tlvCHAIN_HASH md.2.1 ++
              encodeTlvArray tlvLATEST_PM md.2.2) from rfl]
      rw [List.append_assoc (encodeTLV tlvPREV_PF md.1) _ rest]
      rw [List.append_assoc (encodeTLV tlvCHAIN_HASH md.2.1) _ rest]
      rw [mem_scanTLVTypes_encodeTLV _ _ _ _ (by norm_num [tlvPREV_PF]) h1]
      rw [mem_scanTLVTypes_encodeTLV _ _ _ _ (by norm_num [tlvCHAIN_HASH]) h2]
      rw [mem_scanTLVTypes_tlvArray _ _ _ _ (by norm_num [tlvLATEST_PM]) h3]
      simp [hne1, hne2, hne3]

/-- The encoded greet message contains a `SIGNING_KEY` record exactly when
the message carries a `signingKey`. -/
theorem encodeGreetMessage_signingKey_record
    (signkf : List Nat → List Nat → List Nat → List Nat) (m : GreetMessage)
    (privKey pubKey : List Nat)
    (hsigLen : ∀ a p q, (signkf a p q).length < 65536)
    (hsrc : m.source.length < 65536) (hdst : m.dest.length < 65536)
    (hmems : ∀ vs, m.members = some vs → ∀ v ∈ vs, v.length < 65536)
    (hiks : ∀ vs, m.intKeys = some vs → ∀ v ∈ vs, v.length < 65536)
    (hncs : ∀ vs, m.nonces = some vs → ∀ v ∈ vs, v.length < 65536)
    (hpks : ∀ vs, m.pubKeys = some vs → ∀ v ∈ vs, v.length < 65536)
    (hmd : ∀ md, m.metadata = some md → md.1.length < 65536 ∧
        md.2.1.length < 65536 ∧ ∀ p ∈ md.2.2, p.length < 65536)
    (hss : ∀ s, m.sessionSignature = some s → s.length < 65536)
    (hsk : ∀ k, m.signingKey = some k → k.length < 65536) :
    containsTLVType tlvSIGNING_KEY (encodeGreetMessage signkf m privKey pubKey)
        = true ↔ m.signingKey ≠ none := by
  rw [containsTLVType_iff]
  unfold encodeGreetMessage
  rw [mem_scanTLVTypes_encodeTLV _ _ _ _ (by norm_num [tlvMESSAGE_SIGNATURE])
    (by exact hsigLen _ _ _)]
  unfold encodeGreetMessageContent ENCODED_VERSION ENCODED_TYPE_GREET
  rw [mem_scanTLVTypes_encodeTLV _ _ _ _ (by norm_num [tlvPROTOCOL_VERSION])
    (by norm_num)]
  rw [mem_scanTLVTypes_encodeTLV _ _ _ _ (by norm_num [tlvMESSAGE_TYPE])
    (by norm_num)]
  rw [mem_scanTLVTypes_encodeTLV _ _ _ _ (by norm_num [tlvGREET_TYPE])
    (by simp)]
  rw [mem_scanTLVTypes_encodeTLV _ _ _ _ (by norm_num [tlvSOURCE])
    (by exact hsrc)]
  rw [mem_scanTLVTypes_encodeTLV _ _ _ _ (by norm_num [tlvDEST])
    (by exact hdst)]
  rw [mem_scanTLVTypes_optArray _ _ _ _ (by norm_num [tlvMEMBER])
    (by exact hmems)]
  rw [mem_scanTLVTypes_optArray _ _ _ _ (by norm_num [tlvINT_KEY])
    (by exact hiks)]
  rw [mem_scanTLVTypes_optArray _ _ _ _ (by norm_num [tlvNONCE])
    (by exact hncs)]
  rw [mem_scanTLVTypes_optArray _ _ _ _ (by norm_num [tlvPUB_KEY])
    (by exact hpks)]
  rw [mem_scanTLVTypes_optMeta _ _ _
    (by norm_num [tlvSIGNING_KEY, tlvPREV_PF])
    (by norm_num [tlvSIGNING_KEY, tlvCHAIN_HASH])
    (by norm_num [tlvSIGNING_KEY, tlvLATEST_PM]) (by exact hmd)]
  rw [mem_scanTLVTypes_optTLV _ _ _ _ (by norm_num [tlvSESSION_SIGNATURE])
    (by exact hss)]
  rw [mem_scanTLVTypes_optTLV_last _ _ _ (by norm_num [tlvSIGNING_KEY])
    (by exact hsk)]
  simp [tlvSIGNING_KEY, tlvMESSAGE_SIGNATURE, tlvPROTOCOL_VERSION,
    tlvMESSAGE_TYPE, tlvGREET_TYPE, tlvSOURCE, tlvDEST, tlvMEMBER, tlvINT_KEY,
    tlvNONCE, tlvPUB_KEY, tlvSESSION_SIGNATURE]

/-- `_mergeMessages` takes `signingKey` from the ASKE message only. -/
theorem mergeMessages_signingKey (id : List Nat) (cm : Option CliquesMessage)
    (am : Option AskeMessage) (m : GreetMessage)
    (h : _mergeMessages id cm am = Except.ok (some m)) :
    m.signingKey = Option.bind am AskeMessage.signingKey := by
  rcases cm with _ | c <;> rcases am with _ | a <;>
    unfold _mergeMessages at h <;> simp only [] at h
  · exact absurd h (by simp)
  · rw [if_pos True.intro] at h
    simp only [Except.ok.injEq, Option.some.injEq] at h
    rw [← h]
  · rw [if_pos True.intro] at h
    simp only [Except.ok.injEq, Option.some.injEq] at h
    rw [← h]
  · by_cases hc : (c.source == a.source && c.dest == a.dest) = true
    · rw [if_pos hc] at h
      simp only [Except.ok.injEq, Option.some.injEq] at h
      rw [← h]
    · rw [if_neg hc] at h
      exact absurd h (by simp)

/-- C3: every packet a Greeting emits whose encoding contains a
`SIGNING_KEY` record (the ephemeral private key) has greet-type `QUIT_DOWN`;
outside QUIT the key is never placed into an encoded outbound payload.  The
size bounds keep every record within the u16 TLV length. -/
theorem emitted_signingKey_only_on_quit (id : List Nat)
    (signkf : List Nat → List Nat → List Nat → List Nat)
    (privKey pubKey : List Nat) (m : GreetMessage)
    (hem : GreetingEmission id m)
    (hsigLen : ∀ a p q, (signkf a p q).length < 65536)
    (hsrc : m.source.length < 65536) (hdst : m.dest.length < 65536)
    (hmems : ∀ vs, m.members = some vs → ∀ v ∈ vs, v.length < 65536)
    (hiks : ∀ vs, m.intKeys = some vs → ∀ v ∈ vs, v.length < 65536)
    (hncs : ∀ vs, m.nonces = some vs → ∀ v ∈ vs, v.length < 65536)
    (hpks : ∀ vs, m.pubKeys = some vs → ∀ v ∈ vs, v.length < 65536)
    (hmd : ∀ md, m.metadata = some md → md.1.length < 65536 ∧
        md.2.1.length < 65536 ∧ ∀ p ∈ md.2.2, p.length < 65536)
    (hss : ∀ s, m.sessionSignature = some s → s.length < 65536)
    (hsk : ∀ k, m.signingKey = some k → k.length < 65536)
    (hcontains : containsTLVType tlvSIGNING_KEY
        (encodeGreetMessage signkf m privKey pubKey) = true) :
    m.greetType = QUIT_DOWN := by
  have hsome : m.signingKey ≠ none :=
    (encodeGreetMessage_signingKey_record signkf m privKey pubKey hsigLen hsrc
      hdst hmems hiks hncs hpks hmd hss hsk).mp hcontains
  rcases hem with ⟨cm, am, gt, mz, hnosk, hmerge⟩ | ⟨srcq, priv, mz, hmerge⟩
  · exfalso
    apply hsome
    have h1 : ({ mz with greetType := gt } : GreetMessage).signingKey =
        mz.signingKey := rfl
    rw [h1, mergeMessages_signingKey id cm am mz hmerge]
    cases am with
    | none => rfl
    | some a => simp [hnosk a rfl]
  · rfl

/-- C3 witness: the quit packet of member "A" with ephemeral private key
`[7]`, encoded with simple concrete primitives, contains the `SIGNING_KEY`
record and indeed has greet-type `QUIT_DOWN`. -/
theorem emitted_signingKey_only_on_quit_wtn :
    (⟨QUIT_DOWN, [65], [], none, none, none, none, none, none, some [7]⟩ :
        GreetMessage).greetType = QUIT_DOWN :=
  emitted_signingKey_only_on_quit [65] (fun _ _ _ => [1]) [2] [3]
    ⟨QUIT_DOWN, [65], [], none, none, none, none, none, none, some [7]⟩
    (GreetingEmission.quit [65] [7]
      ⟨(0, 0), [65], [], none, none, none, none, none, none, some [7]⟩ rfl)
    (fun a p q => by simp) (by decide) (by decide)
    (fun vs hvs => by simp at hvs) (fun vs hvs => by simp at hvs)
    (fun vs hvs => by simp at hvs) (fun vs hvs => by simp at hvs)
    (fun md hmd => by simp at hmd) (fun s hs => by simp at hs)
    (fun k hk => by
      simp only [Option.some.injEq] at hk
      subst hk
      decide)
    ((encodeGreetMessage_signingKey_record (fun _ _ _ => [1])
      ⟨QUIT_DOWN, [65], [], none, none, none, none, none, none, some [7]⟩
      [2] [3] (fun a p q => by simp) (by decide) (by decide)
      (fun vs hvs => by simp at hvs) (fun vs hvs => by simp at hvs)
      (fun vs hvs => by simp at hvs) (fun vs hvs => by simp at hvs)
      (fun md hmd => by simp at hmd) (fun s hs => by simp at hs)
      (fun k hk => by
        simp only [Option.some.injEq] at hk
        subst hk
        decide)).mpr (by simp))

/-! ## C2: `decryptVerify ∘ authEncrypt` round-trip -/

theorem popTLV_encodeTLV_self (t : Nat) (v : List Nat)
    (ht : t < 65536) (hv : v.length < 65536) :
    popTLV (encodeTLV t v) t = Except.ok (v, []) := by
  have h := popTLV_encodeTLV t v [] ht hv
  rwa [List.append_nil] at h

/-- `popStandardFields` on the data-packet content strips the version record
and the `MESSAGE_TYPE` record, both checks passing. -/
theorem popStandardFields_dataContent (iv cipher : List Nat) :
    popStandardFields (dataContent iv cipher) MPENC_DATA_MESSAGE =
      Except.ok (encodeTLV tlvMESSAGE_IV iv ++ encodeTLV tlvMESSAGE_PAYLOAD cipher) := by
  unfold popStandardFields dataContent ENCODED_VERSION ENCODED_TYPE_DATA
  rw [popTLV_encodeTLV tlvPROTOCOL_VERSION _ _ (by norm_num [tlvPROTOCOL_VERSION])
    (by norm_num)]
  simp only []
  rw [if_pos True.intro]
  rw [popTLV_encodeTLV tlvMESSAGE_TYPE _ _ (by norm_num [tlvMESSAGE_TYPE])
    (by norm_num)]
  simp only []
  rw [if_pos True.intro]

/-- C2: on a READY store whose member list contains the author (the store
owner), for any parent ids and any non-empty valid-Unicode body, decrypting
and verifying the pubtxt produced by `authEncrypt`, with the author as
`authorHint`, succeeds and returns the same author, the same parents, the
same body, and readers equal to the store's member list minus the author.
The crypto primitives (SHA-256, Ed25519, the AES-CTR keystream, the RNG
nonce) are abstract, constrained only by their interface laws; the size
bounds keep every record within the u16 TLV length. -/
theorem authEncrypt_decryptVerify_roundtrip (sha : List Nat → List Nat)
    (signkf : List Nat → List Nat → List Nat → List Nat)
    (verifyf : List Nat → List Nat → List Nat → Bool)
    (ks : List Nat → List Nat → Nat → List Nat)
    (nonce : List Nat) (store : GreetStore) (P : Nat)
    (parents : List (List Nat)) (readers : List (List Nat)) (body : List Nat)
    (hready : store.opState = STATE_READY)
    (hmem : store.id ∈ store.members)
    (hid : ¬store.id = [])
    (hbody_ne : body ≠ [])
    (hbody : ∀ c ∈ body, c < 1114112)
    (hreaders : insert store.id readers.toFinset = store.members.toFinset)
    (hkey : store.pubKeyMap store.id = some store.ephemeralPubKey)
    (hsize : (rawBodyOf parents body).length < 65535)
    (hplen : ∀ p ∈ parents, p.length < 65536)
    (hpad : (paddedPlain (rawBodyOf parents body) P).length < 65536)
    (hkslen : ∀ key iv n, (ks key iv n).length = n)
    (hksbytes : ∀ key iv n, isBytes (ks key iv n))
    (hshaBytes : isBytes (sha (store.sessionId ++ store.groupKey)))
    (hshaNe : sha (store.sessionId ++ store.groupKey) ≠ [])
    (hsigBytes : ∀ m p q, isBytes (signkf m p q))
    (hsigLen : ∀ m p q, (signkf m p q).length < 65536)
    (hverify : ∀ m, verifyf (signkf m store.ephemeralPrivKey store.ephemeralPubKey)
        m store.ephemeralPubKey = true)
    (hnonceLen : nonce.length = 12) (hnonceBytes : isBytes nonce)
    (hparBytes : ∀ p ∈ parents, isBytes p) :
    ∃ pubtxt,
      authEncrypt sha signkf ks nonce store P store.id parents readers body =
          Except.ok pubtxt ∧
        decryptVerify sha verifyf ks store pubtxt store.id =
          Except.ok ⟨store.id, parents, store.members.erase store.id, body⟩ := by
  clear hready hbody_ne
  refine ⟨encodeWirePacket (authPacket sha signkf store nonce
    (aesCTR ks (paddedPlain (rawBodyOf parents body) P) store.groupKey
      (nonce ++ [0, 0, 0, 0]))), ?_, ?_⟩
  · unfold authEncrypt
    rw [if_pos rfl, if_pos hreaders]
    unfold _encryptRaw
    rw [if_pos hsize]
  · have hutf8len : (utf8Encode body).length < 65536 := by
      have hb : (rawBodyOf parents body).length =
          ((parents.map (encodeTLV tlvMESSAGE_PARENT)).flatten).length +
            (4 + (utf8Encode body).length) := by
        simp [rawBodyOf, encodeTLV_length]
      omega
    have hbytesRawB : isBytes (rawBodyOf parents body) := by
      unfold rawBodyOf
      apply isBytes_append
      · apply isBytes_flatten
        intro x hx
        obtain ⟨p, hp, rfl⟩ := List.mem_map.mp hx
        exact isBytes_encodeTLV (by norm_num [tlvMESSAGE_PARENT]) (hplen p hp)
          (hparBytes p hp)
      · exact isBytes_encodeTLV (by norm_num [tlvMESSAGE_BODY]) hutf8len
          (utf8Encode_bytes body hbody)
    have hbytesPadded : isBytes (paddedPlain (rawBodyOf parents body) P) :=
      isBytes_paddedPlain P hbytesRawB (by omega)
    have hcipherLen : (aesCTR ks (paddedPlain (rawBodyOf parents body) P)
        store.groupKey (nonce ++ [0, 0, 0, 0])).length =
        (paddedPlain (rawBodyOf parents body) P).length :=
      aesCTR_length ks hkslen _ _ _
    have hbytesCipher : isBytes (aesCTR ks (paddedPlain (rawBodyOf parents body) P)
        store.groupKey (nonce ++ [0, 0, 0, 0])) :=
      isBytes_aesCTR hksbytes hbytesPadded _ _
    have hbytesContent : isBytes (dataContent nonce (aesCTR ks
        (paddedPlain (rawBodyOf parents body) P) store.groupKey
        (nonce ++ [0, 0, 0, 0]))) := by
      unfold dataContent
      apply isBytes_append
      · intro b hb
        revert hb
        revert b
        decide
      apply isBytes_append
      · intro b hb
        revert hb
        revert b
        decide
      apply isBytes_append
      · exact isBytes_encodeTLV (by norm_num [tlvMESSAGE_IV]) (by omega) hnonceBytes
      · exact isBytes_encodeTLV (by norm_num [tlvMESSAGE_PAYLOAD])
          (by rw [hcipherLen]; exact hpad) hbytesCipher
    have hhintBytes : isBytes ((sha (store.sessionId ++ store.groupKey)).take 1) :=
      fun b hb => hshaBytes b (List.mem_of_mem_take hb)
    have hhintLen1 : ((sha (store.sessionId ++ store.groupKey)).take 1).length = 1 := by
      rw [List.length_take]
      have := List.length_pos.mpr hshaNe
      omega
    have hbytesOut : isBytes (authPacket sha signkf store nonce (aesCTR ks
        (paddedPlain (rawBodyOf parents body) P) store.groupKey
        (nonce ++ [0, 0, 0, 0]))) := by
      unfold authPacket
      apply isBytes_append
      · exact isBytes_encodeTLV (by norm_num [tlvSIDKEY_HINT])
          (by rw [hhintLen1]; norm_num) hhintBytes
      apply isBytes_append
      · unfold signMessage
        exact isBytes_encodeTLV (by norm_num [tlvMESSAGE_SIGNATURE])
          (hsigLen _ _ _) (hsigBytes _ _ _)
      · exact hbytesContent
    unfold decryptVerify
    rw [if_neg hid]
    rw [show decodeWirePacket (encodeWirePacket (authPacket sha signkf store nonce
        (aesCTR ks (paddedPlain (rawBodyOf parents body) P) store.groupKey
          (nonce ++ [0, 0, 0, 0])))) =
        authPacket sha signkf store nonce (aesCTR ks
          (paddedPlain (rawBodyOf parents body) P) store.groupKey
          (nonce ++ [0, 0, 0, 0]))
      from wire_roundtrip _ hbytesOut]
    unfold authPacket
    rw [popTLV_encodeTLV tlvSIDKEY_HINT _ _ (by norm_num [tlvSIDKEY_HINT])
      (by rw [hhintLen1]; norm_num)]
    simp only []
    rw [if_pos hhintLen1]
    rw [popTLV_encodeTLV tlvMESSAGE_SIGNATURE
      (signMessage signkf MPENC_DATA_MESSAGE
        (dataContent nonce (aesCTR ks (paddedPlain (rawBodyOf parents body) P)
          store.groupKey (nonce ++ [0, 0, 0, 0])))
        store.ephemeralPrivKey store.ephemeralPubKey
        (sha (store.sessionId ++ store.groupKey))) _
      (by norm_num [tlvMESSAGE_SIGNATURE])
      (show (signMessage signkf MPENC_DATA_MESSAGE
        (dataContent nonce (aesCTR ks (paddedPlain (rawBodyOf parents body) P)
          store.groupKey (nonce ++ [0, 0, 0, 0])))
        store.ephemeralPrivKey store.ephemeralPubKey
        (sha (store.sessionId ++ store.groupKey))).length < 65536
        from hsigLen _ _ _)]
    simp only [hkey]
    rw [show verifyMessageSignature verifyf MPENC_DATA_MESSAGE
        (dataContent nonce (aesCTR ks (paddedPlain (rawBodyOf parents body) P)
          store.groupKey (nonce ++ [0, 0, 0, 0])))
        (signMessage signkf MPENC_DATA_MESSAGE
          (dataContent nonce (aesCTR ks (paddedPlain (rawBodyOf parents body) P)
            store.groupKey (nonce ++ [0, 0, 0, 0])))
          store.ephemeralPrivKey store.ephemeralPubKey
          (sha (store.sessionId ++ store.groupKey)))
        store.ephemeralPubKey (sha (store.sessionId ++ store.groupKey)) = true from by
      unfold verifyMessageSignature signMessage
      exact hverify _]
    rw [if_pos rfl]
    rw [popStandardFields_dataContent]
    simp only []
    rw [popTLV_encodeTLV tlvMESSAGE_IV _ _ (by norm_num [tlvMESSAGE_IV])
      (by omega)]
    simp only []
    rw [popTLV_encodeTLV_self tlvMESSAGE_PAYLOAD _
      (by norm_num [tlvMESSAGE_PAYLOAD]) (by rw [hcipherLen]; exact hpad)]
    simp only []
    rw [if_neg (show ¬aesCTR ks (paddedPlain (rawBodyOf parents body) P)
        store.groupKey (nonce ++ [0, 0, 0, 0]) = [] from by
      intro h
      have := hcipherLen
      rw [h] at this
      have h2 := paddedPlain_length_ge (rawBodyOf parents body) P
      simp at this
      omega)]
    rw [show _decryptRaw (aesCTR ks)
        (aesCTR ks (paddedPlain (rawBodyOf parents body) P) store.groupKey
          (nonce ++ [0, 0, 0, 0])) store.groupKey nonce =
        rawBodyOf parents body from by
      unfold _decryptRaw
      rw [show nonce.take 12 = nonce from by
        rw [← hnonceLen, List.take_length]]
      rw [aesCTR_involution ks hkslen]
      exact paddedPlain_strip (rawBodyOf parents body) P (by omega)]
    rw [show rawBodyOf parents body =
        (parents.map (encodeTLV tlvMESSAGE_PARENT)).flatten ++
          (encodeTLV tlvMESSAGE_BODY (utf8Encode body) ++ []) from by
      simp [rawBodyOf]]
    rw [popTLVAll_flatten tlvMESSAGE_PARENT parents _
      (by norm_num [tlvMESSAGE_PARENT]) hplen
      (popTLVAll_encodeTLV_ne tlvMESSAGE_BODY tlvMESSAGE_PARENT _ _
        (by norm_num [tlvMESSAGE_BODY]) hutf8len
        (by norm_num [tlvMESSAGE_BODY, tlvMESSAGE_PARENT]))]
    simp only []
    rw [popTLV_encodeTLV tlvMESSAGE_BODY _ _ (by norm_num [tlvMESSAGE_BODY])
      hutf8len]
    simp only []
    rw [utf8Decode_utf8Encode body hbody]
    simp only []
    rw [if_pos hmem]

/-- C2 witness: a concrete two-member store, one parent id, a multi-byte
body (code points 233 and 10003), with simple concrete primitives. -/
theorem authEncrypt_decryptVerify_roundtrip_wtn :
    ∃ pubtxt,
      authEncrypt (fun l => [l.length % 256, 7]) (fun m _ _ => [m.length % 256, 55])
          (fun _ _ n => List.replicate n 170) (List.replicate 12 1)
          ⟨[65], STATE_READY, [[65], [66]], [9, 9], [3], [4], [[4], [5]], [8, 8]⟩
          0 [65] [[1, 2]] [[66]] [233, 10003] = Except.ok pubtxt ∧
        decryptVerify (fun l => [l.length % 256, 7])
          (fun s m _ => decide (s = [m.length % 256, 55]))
          (fun _ _ n => List.replicate n 170)
          ⟨[65], STATE_READY, [[65], [66]], [9, 9], [3], [4], [[4], [5]], [8, 8]⟩
          pubtxt [65] =
          Except.ok ⟨[65], [[1, 2]],
            ([[65], [66]] : List (List Nat)).erase [65], [233, 10003]⟩ :=
  authEncrypt_decryptVerify_roundtrip (fun l => [l.length % 256, 7])
    (fun m _ _ => [m.length % 256, 55]) (fun s m _ => decide (s = [m.length % 256, 55]))
    (fun _ _ n => List.replicate n 170) (List.replicate 12 1)
    ⟨[65], STATE_READY, [[65], [66]], [9, 9], [3], [4], [[4], [5]], [8, 8]⟩
    0 [[1, 2]] [[66]] [233, 10003]
    (by decide) (by decide) (by decide) (by decide) (by decide) (by decide)
    (by decide) (by decide) (by decide) (by decide)
    (fun key iv n => by simp)
    (fun key iv n b hb => by rw [List.eq_of_mem_replicate hb]; norm_num)
    (by
      intro b hb
      simp only [List.mem_cons, List.not_mem_nil, or_false] at hb
      rcases hb with hb | hb <;> omega)
    (by decide)
    (fun m p q b hb => by
      simp only [List.mem_cons, List.not_mem_nil, or_false] at hb
      rcases hb with hb | hb <;> omega)
    (fun m p q => by simp)
    (fun m => by simp) (by decide)
    (by
      intro b hb
      rw [List.eq_of_mem_replicate hb]
      norm_num)
    (by
      intro p hp b hb
      simp only [List.mem_cons, List.not_mem_nil, or_false] at hp
      subst hp
      simp only [List.mem_cons, List.not_mem_nil, or_false] at hb
      rcases hb with hb | hb <;> omega)

end Mpenc
